import Mathlib

/-!
Verification of the mtx-toolkit reliability control plane.

This file gives a shallow embedding of the backend services
(`config_manager.py`, `fleet_manager.py`, `auto_remediation.py`,
`retention_manager.py`, `health_checker.py`) and proves or refutes the
frozen specification claims about them.  Machine integers are modelled as
`Nat`/`Int` with explicit wrap-around where it matters; external I/O
(HTTP calls to a node, the filesystem, the database session) is modelled
by explicit state passing and request traces.
-/

namespace MtxToolkit

/-! ## YAML values

`yaml.safe_load` produces Python scalars, lists and dicts.  We model the
parsed values by the inductive `Yaml`; a Python dict is an association
list (PyYAML keeps the last duplicate key, and real MediaMTX configs have
distinct keys, which our theorems assume explicitly where needed). -/

inductive Yaml where
  | null : Yaml
  | bool (b : Bool) : Yaml
  | int (n : Int) : Yaml
  | str (s : String) : Yaml
  | list (xs : List Yaml) : Yaml
  | map (kvs : List (String × Yaml)) : Yaml

/-- Association-list lookup, modelling Python `dict.get` / `d[k]`. -/
def alookup (k : String) : List (String × Yaml) → Option Yaml
  | [] => none
  | (k', v) :: rest => if k = k' then some v else alookup k rest

theorem alookup_mem {k : String} {l : List (String × Yaml)} {v : Yaml}
    (h : alookup k l = some v) : (k, v) ∈ l := by
  induction l with
  | nil => simp [alookup] at h
  | cons kv rest ih =>
    obtain ⟨k', v'⟩ := kv
    by_cases hk : k = k'
    · simp [alookup, hk] at h
      simp [hk, h]
    · simp [alookup, hk] at h
      exact List.mem_cons_of_mem _ (ih h)

/-- Quote a string for serialized output. -/
def quoteStr (s : String) : String := "\"" ++ s ++ "\""

/-- Comma-join a list of rendered fragments. -/
def joinComma : List String → String
  | [] => ""
  | [x] => x
  | x :: xs => x ++ ", " ++ joinComma xs

/-- Key order used by the sorted-key serialization. -/
def keyLE (p q : String × String) : Bool := p.1 ≤ q.1

/--
Models `yaml.dump(config, sort_keys=True)`: a deterministic re-serialization
of the parsed value in which every mapping is rendered with its keys in
sorted order (values are serialized first, then the rendered entries are
sorted by key, which gives the same string because sorting is stable and
keys are untouched by rendering).
-/
def dumpYaml : Yaml → String
  | .null => "null"
  | .bool b => toString b
  | .int n => toString n
  | .str s => quoteStr s
  | .list xs =>
      "[" ++ joinComma (xs.attach.map (fun x => dumpYaml x.1)) ++ "]"
  | .map kvs =>
      "\x7b" ++ joinComma
        (((kvs.attach.map (fun kv => (kv.1.1, dumpYaml kv.1.2))).mergeSort keyLE).map
          (fun p => quoteStr p.1 ++ ": " ++ p.2)) ++ "\x7d"
decreasing_by
  all_goals simp_wf
  · have := List.sizeOf_lt_of_mem x.2
    omega
  · have h1 := List.sizeOf_lt_of_mem kv.2
    obtain ⟨⟨a, b⟩, hm⟩ := kv
    simp at *
    omega

/-! ## SHA-256

Model of `hashlib.sha256(...).hexdigest()` (FIPS 180-4), over byte lists,
with 32-bit words as `Nat` reduced modulo `2^32`.  Validated against the
standard test vectors (empty string, "abc"). -/

/-- `2^32`, the modulus of 32-bit machine arithmetic. -/
def M32 : Nat := 4294967296

def add32 (a b : Nat) : Nat := (a + b) % M32

def rotr32 (n x : Nat) : Nat := ((x >>> n) ||| (x <<< (32 - n))) % M32

def bsig0 (x : Nat) : Nat := (rotr32 2 x) ^^^ (rotr32 13 x) ^^^ (rotr32 22 x)
def bsig1 (x : Nat) : Nat := (rotr32 6 x) ^^^ (rotr32 11 x) ^^^ (rotr32 25 x)
def ssig0 (x : Nat) : Nat := (rotr32 7 x) ^^^ (rotr32 18 x) ^^^ (x >>> 3)
def ssig1 (x : Nat) : Nat := (rotr32 17 x) ^^^ (rotr32 19 x) ^^^ (x >>> 10)

/-- The SHA-256 round constants (FIPS 180-4 §4.2.2, written in decimal). -/
def shaK : List Nat :=
  [1116352408, 1899447441, 3049323471, 3921009573, 961987163, 1508970993,
   2453635748, 2870763221, 3624381080, 310598401, 607225278, 1426881987,
   1925078388, 2162078206, 2614888103, 3248222580, 3835390401, 4022224774,
   264347078, 604807628, 770255983, 1249150122, 1555081692, 1996064986,
   2554220882, 2821834349, 2952996808, 3210313671, 3336571891, 3584528711,
   113926993, 338241895, 666307205, 773529912, 1294757372, 1396182291,
   1695183700, 1986661051, 2177026350, 2456956037, 2730485921, 2820302411,
   3259730800, 3345764771, 3516065817, 3600352804, 4094571909, 275423344,
   430227734, 506948616, 659060556, 883997877, 958139571, 1322822218,
   1537002063, 1747873779, 1955562222, 2024104815, 2227730452, 2361852424,
   2428436474, 2756734187, 3204031479, 3329325298]

/-- The SHA-256 initial hash state (FIPS 180-4 §5.3.3, written in decimal). -/
def shaH0 : List Nat :=
  [1779033703, 3144134277, 1013904242, 2773480762,
   1359893119, 2600822924, 528734635, 1541459225]

/-- Append the `0x80` marker, zero padding and 64-bit big-endian length. -/
def sha256pad (msg : List Nat) : List Nat :=
  let L := msg.length * 8
  let zeros := (55 + 64 - msg.length % 64) % 64
  msg ++ [0x80] ++ List.replicate zeros 0 ++
    (List.range 8).map (fun i => (L >>> (8 * (7 - i))) % 256)

/-- Big-endian 4-byte groups to 32-bit words. -/
def bytesToWords : List Nat → List Nat
  | b0 :: b1 :: b2 :: b3 :: rest =>
      (((b0 * 256 + b1) * 256 + b2) * 256 + b3) :: bytesToWords rest
  | _ => []

/-- Split into 64-byte blocks. -/
def chunk64 : List Nat → List (List Nat)
  | [] => []
  | a :: l => ((a :: l).take 64) :: chunk64 ((a :: l).drop 64)
termination_by l => l.length
decreasing_by
  simp
  omega

/-- Extend the 16 block words to the 64-entry message schedule. -/
def schedule (w0 : List Nat) : List Nat :=
  (List.range 48).foldl (fun w _ =>
    let n := w.length
    w ++ [add32 (add32 (w.getD (n - 16) 0) (ssig0 (w.getD (n - 15) 0)))
               (add32 (w.getD (n - 7) 0) (ssig1 (w.getD (n - 2) 0)))]) w0

/-- One SHA-256 compression step over a 64-byte block. -/
def compressChunk (H : List Nat) (chunkBytes : List Nat) : List Nat :=
  let w := schedule (bytesToWords chunkBytes)
  let final := (List.range 64).foldl
    (fun (st : Nat × Nat × Nat × Nat × Nat × Nat × Nat × Nat) t =>
      let (a, b, c, d, e, f, g, h) := st
      let ch := (e &&& f) ^^^ ((M32 - 1 - e) &&& g)
      let t1 := add32 (add32 (add32 h (bsig1 e)) (add32 ch (shaK.getD t 0))) (w.getD t 0)
      let maj := (a &&& b) ^^^ (a &&& c) ^^^ (b &&& c)
      let t2 := add32 (bsig0 a) maj
      (add32 t1 t2, a, b, c, add32 d t1, e, f, g))
    (H.getD 0 0, H.getD 1 0, H.getD 2 0, H.getD 3 0,
     H.getD 4 0, H.getD 5 0, H.getD 6 0, H.getD 7 0)
  let (a, b, c, d, e, f, g, h) := final
  [add32 (H.getD 0 0) a, add32 (H.getD 1 0) b, add32 (H.getD 2 0) c, add32 (H.getD 3 0) d,
   add32 (H.getD 4 0) e, add32 (H.getD 5 0) f, add32 (H.getD 6 0) g, add32 (H.getD 7 0) h]

/-- The eight 32-bit hash words of a byte message. -/
def sha256words (msg : List Nat) : List Nat :=
  (chunk64 (sha256pad msg)).foldl compressChunk shaH0

def hexDigitChar (n : Nat) : Char :=
  if n < 10 then Char.ofNat (48 + n) else Char.ofNat (87 + n)

def word2hex (w : Nat) : String :=
  String.mk ((List.range 8).map (fun i => hexDigitChar ((w >>> (4 * (7 - i))) % 16)))

/-- `hashlib.sha256(msg).hexdigest()`. -/
def sha256hex (msg : List Nat) : String :=
  String.join ((sha256words msg).map word2hex)

/-- Python `str.encode()`: the UTF-8 bytes of a string. -/
def strBytes (s : String) : List Nat := s.toUTF8.toList.map (fun b => b.toNat)

/-! ## Python semantics on parsed YAML values -/

/-- Python truthiness of a parsed YAML value (`if not x:`):
`None`, `False`, `0`, `""`, `[]` and `{}` are falsy. -/
def Yaml.falsy : Yaml → Bool
  | .null => true
  | .bool b => !b
  | .int n => n == 0
  | .str s => s == ""
  | .list xs => xs.isEmpty
  | .map kvs => kvs.isEmpty

/-- Python `==` on parsed YAML values.  Lists compare element-wise; dicts
compare as mappings (same key set, equal value at every key), which is
order-insensitive.  Dicts are represented as association lists; the model's
domain is lists with distinct keys (Python dicts cannot repeat a key).
Scalars of different kinds are modelled as unequal. -/
def Yaml.eqv : Yaml → Yaml → Bool
  | .null, .null => true
  | .bool a, .bool b => a == b
  | .int a, .int b => a == b
  | .str a, .str b => a == b
  | .list xs, .list ys =>
      xs.length == ys.length &&
      (xs.zip ys).attach.all (fun p => Yaml.eqv p.1.1 p.1.2)
  | .map kvs, .map kvs' =>
      (kvs.map Prod.fst).all (fun k => (kvs'.map Prod.fst).contains k) &&
      (kvs'.map Prod.fst).all (fun k => (kvs.map Prod.fst).contains k) &&
      kvs.attach.all (fun kv =>
        match h : alookup kv.1.1 kvs' with
        | some v' => Yaml.eqv kv.1.2 v'
        | none => false)
  | _, _ => false
termination_by a b => sizeOf a + sizeOf b
decreasing_by
  · have h1 := (List.of_mem_zip p.2).1
    have h2 := (List.of_mem_zip p.2).2
    have h3 := List.sizeOf_lt_of_mem h1
    have h4 := List.sizeOf_lt_of_mem h2
    obtain ⟨⟨x, y⟩, hm⟩ := p
    simp at *
    omega
  · have h1 := List.sizeOf_lt_of_mem kv.2
    have h2 := List.sizeOf_lt_of_mem (alookup_mem h)
    obtain ⟨⟨a, b⟩, hm⟩ := kv
    simp at *
    omega

/-- Well-formedness of a parsed value as a Python object: every mapping
(recursively) has distinct keys.  All values produced by `yaml.safe_load`
satisfy this, because Python dicts cannot repeat a key. -/
def Yaml.wf : Yaml → Bool
  | .null | .bool _ | .int _ | .str _ => true
  | .list xs => xs.attach.all (fun x => Yaml.wf x.1)
  | .map kvs =>
      decide (kvs.map Prod.fst).Nodup &&
      kvs.attach.all (fun kv => Yaml.wf kv.1.2)
decreasing_by
  all_goals simp_wf
  · have := List.sizeOf_lt_of_mem x.2
    omega
  · have h1 := List.sizeOf_lt_of_mem kv.2
    obtain ⟨⟨a, b⟩, hm⟩ := kv
    simp at *
    omega

/-! ## Config Engine (`config_manager.py`, class `ConfigManager`)

A YAML-formatted text is modelled by its `yaml.safe_load` result: an
`Option Yaml` that is `none` when the text does not parse.  The dump/parse
round trip of the YAML library (`safe_load (dump v) = v`) is built into
the model.  HTTP traffic to the node is an explicit request trace; the
node's behaviour is a `NodeEnv`.  The SQLAlchemy session is a pair of
persisted rows and pending (added but uncommitted) rows: `add`/`flush`
appends to pending, `commit` persists pending, `rollback` discards it. -/

namespace ConfigManager

def Yaml.isStr : Yaml → Bool
  | .str _ => true
  | _ => false

/-- First 16 hex characters of the SHA-256 of the sorted-key
re-serialization: the body of `_hash_config` after parsing. -/
def hashOfYaml (c : Yaml) : String :=
  (sha256hex (strBytes (dumpYaml c))).take 16

/-- `ConfigManager._hash_config`, over a genuine text and an arbitrary
parse function standing for `yaml.safe_load` (the hash is `none` when the
text does not parse, where the source raises). -/
def hash_config (parse : String → Option Yaml) (config_yaml : String) : Option String :=
  (parse config_yaml).map hashOfYaml

/-- Result shape of `ConfigManager.validate` (`config_hash` is absent on
the two early error returns). -/
structure Validation where
  valid : Bool
  errors : List String
  warnings : List String
  config_hash : Option String

/-- `ConfigManager._validate_path`. -/
def validate_path (path_name : String) (path_config : Yaml) : List String :=
  if path_config.falsy then []
  else
    match path_config with
    | .map kvs =>
        (match alookup "source" kvs with
         | some v =>
             if !v.falsy && !(Yaml.isStr v) then
               ["Path '" ++ path_name ++ "': source must be a string"]
             else []
         | none => []) ++
        (match alookup "runOnReady" kvs with
         | some v =>
             if !v.falsy && !(Yaml.isStr v) then
               ["Path '" ++ path_name ++ "': runOnReady must be a string"]
             else []
         | none => [])
    | _ => ["Path '" ++ path_name ++ "' config must be a mapping"]

/-- Low-timeout warning check (`config.get(key) and config.get(key) < 5`).
Python treats `True` as `1` in the comparison; a truthy value of another
kind raises `TypeError` in the source and is outside the modelled domain. -/
def timeoutWarning (v : Option Yaml) (msg : String) : List String :=
  match v with
  | some (.int n) => if n ≠ 0 && n < 5 then [msg] else []
  | some (.bool b) => if b then [msg] else []
  | _ => []

/-- `ConfigManager.validate`, over the parse result of the input text. -/
def validate (config : Option Yaml) : Validation :=
  match config with
  | none => ⟨false, ["YAML parse error"], [], none⟩
  | some c =>
      match c with
      | .map kvs =>
          let missing := match alookup "paths" kvs with
            | none => ["Missing required field: paths"]
            | some _ => []
          let pathErrs := match alookup "paths" kvs with
            | some (.map ps) => (ps.map (fun kv => validate_path kv.1 kv.2)).flatten
            | some _ => ["'paths' must be a mapping"]
            | none => []
          let warns := timeoutWarning (alookup "readTimeout" kvs)
                         "readTimeout is very low, may cause connection issues" ++
                       timeoutWarning (alookup "writeTimeout" kvs)
                         "writeTimeout is very low, may cause connection issues"
          let errors := missing ++ pathErrs
          ⟨errors.isEmpty, errors, warns, some (hashOfYaml c)⟩
      | _ => ⟨false, ["Config must be a YAML mapping"], [], none⟩

/-- One entry of the structural change list of `_analyze_changes`. -/
inductive Change where
  | added (path : String) (value : Yaml)
  | removed (path : String) (value : Yaml)
  | modified (path : String) (old_value new_value : Yaml)

def dotted (path key : String) : String :=
  if path = "" then key else path ++ "." ++ key

/-- `ConfigManager._analyze_changes`.  Python iterates the key union as a
set in unspecified order; the model fixes first-occurrence order, on which
no claim depends. -/
def analyzeChanges (old new : List (String × Yaml)) (path : String) : List Change :=
  let allKeys := (old.map Prod.fst ++ new.map Prod.fst).eraseDups
  (allKeys.map (fun key =>
    let current_path := dotted path key
    match hov : alookup key old, hnv : alookup key new with
    | none, some nv => [Change.added current_path nv]
    | some ov, none => [Change.removed current_path ov]
    | some ov, some nv =>
        if !(Yaml.eqv ov nv) then
          match ov, nv with
          | .map m1, .map m2 => analyzeChanges m1 m2 current_path
          | _, _ => [Change.modified current_path ov nv]
        else []
    | none, none => [])).flatten
termination_by sizeOf old + sizeOf new
decreasing_by
  have h1 := List.sizeOf_lt_of_mem (alookup_mem hov)
  have h2 := List.sizeOf_lt_of_mem (alookup_mem hnv)
  simp at h1 h2
  omega

/-- Result shape of `ConfigManager.diff`: the `{"error": ...}` early
return, or the diff record (`unified_diff` itself is an external text
diff; its emptiness test `has_changes` is equivalent to equality of the
two sorted-key dumps, which is how it is modelled). -/
inductive DiffResult where
  | parseError
  | ok (has_changes : Bool) (changes : List Change) (old_hash new_hash : Option String)

def DiffResult.changesOf : DiffResult → List Change
  | .parseError => []
  | .ok _ cs _ _ => cs

/-- `ConfigManager.diff`.  `old_config = none` models a falsy old text
(the source substitutes `{}`); in the flows the claims exercise, the old
text is a re-dump of a node reply and always parses.  Non-mapping parse
results make `_analyze_changes` raise in the source and are outside the
modelled domain (the model returns no changes for them). -/
def diff (old_config : Option Yaml) (new_config : Option Yaml) : DiffResult :=
  match new_config with
  | none => .parseError
  | some n =>
      let o := old_config.getD (.map [])
      let changes := match o, n with
        | .map m1, .map m2 => analyzeChanges m1 m2 ""
        | _, _ => []
      .ok (decide (dumpYaml o ≠ dumpYaml n)) changes
        (old_config.map hashOfYaml) (some (hashOfYaml n))

/-- Behaviour of one node's control API as seen by the config engine:
the parse of the JSON body a `GET /v3/config/global/get` returns (or
`none` for a non-200/unreachable node), and the status code returned for
a `PATCH /v3/config/global/patch` with a given body. -/
structure NodeEnv where
  getGlobalConfig : Option Yaml
  patchStatus : Yaml → Nat

/-- One HTTP request received by the node. -/
inductive Request where
  | getGlobal
  | patchGlobal (body : Yaml)

/-- `ConfigManager._fetch_current_config`: returns `yaml.dump(response.json())`
on a 200 (modelled by the dumped value) and `None` otherwise. -/
def fetch_current_config (env : NodeEnv) : Option Yaml × List Request :=
  (env.getGlobalConfig, [Request.getGlobal])

/-- A persisted `ConfigSnapshot` row (fields the claims mention). -/
structure Snapshot where
  node_id : Option Nat
  config_hash : String
  config_yaml : Yaml
  applied : Bool
  notes : Option String

/-- The SQLAlchemy session: persisted rows plus pending uncommitted rows. -/
structure DBState where
  persisted : List Snapshot
  pending : List Snapshot

def DBState.add (db : DBState) (s : Snapshot) : DBState :=
  { db with pending := db.pending ++ [s] }

def DBState.commit (db : DBState) : DBState :=
  ⟨db.persisted ++ db.pending, []⟩

def DBState.rollbackTx (db : DBState) : DBState :=
  { db with pending := [] }

/-- Result shape of `ConfigManager.plan`. -/
inductive PlanResult where
  | invalid (validation : Validation)
  | ok (validation : Validation) (d : DiffResult)

def PlanResult.can_apply : PlanResult → Bool
  | .invalid _ => false
  | .ok _ _ => true

/-- `ConfigManager.plan`: validate, fetch the node's current config (one
GET when a node is given), diff. -/
def plan (node : Option NodeEnv) (new_config : Option Yaml) :
    PlanResult × List Request :=
  let validation := validate new_config
  if !validation.valid then (.invalid validation, [])
  else
    match node with
    | some env =>
        let (cur, tr) := fetch_current_config env
        (.ok validation (diff cur new_config), tr)
    | none => (.ok validation (diff none new_config), [])

/-- Outcome of `ConfigManager.apply` (the claims read `success` and
`rolled_back`). -/
inductive ApplyResult where
  | validationFailed
  | applied (changes_applied : Nat) (had_backup : Bool)
  | failed (rolled_back : Bool)

def ApplyResult.success : ApplyResult → Bool
  | .applied _ _ => true
  | _ => false

/--
`ConfigManager.apply`: plan (which itself fetches the node's current
config), fetch the current config again for the backup, add the backup
snapshot to the session, send the new config to the node
(`_apply_to_node`, success iff the PATCH status is 200 or 204), then
either commit the new snapshot or roll the session back and best-effort
re-send the backup.  Returns the result, the session state and the trace
of requests the node received.
-/
def applyConfig (node : Option NodeEnv) (node_id : Option Nat)
    (new_config : Option Yaml) (notes : Option String) (db : DBState) :
    ApplyResult × DBState × List Request :=
  let (plan_result, tr1) := plan node new_config
  match plan_result with
  | .invalid _ => (.validationFailed, db, tr1)
  | .ok validation diffR =>
      let (current_config, tr2) := match node with
        | some env => fetch_current_config env
        | none => (none, [])
      let db1 := match current_config with
        | some cur =>
            db.add { node_id := node_id, config_hash := hashOfYaml cur,
                     config_yaml := cur, applied := true,
                     notes := some "Auto-backup before apply" }
        | none => db
      let (patched, tr3) := match node, new_config with
        | some env, some cfg =>
            (decide (env.patchStatus cfg ∈ [200, 204]), [Request.patchGlobal cfg])
        | some _, none => (false, [])
        | none, _ => (true, [])
      if patched then
        let snap : Snapshot :=
          { node_id := node_id, config_hash := validation.config_hash.getD "",
            config_yaml := new_config.getD .null, applied := true, notes := notes }
        let db2 := (db1.add snap).commit
        (.applied diffR.changesOf.length current_config.isSome, db2, tr1 ++ tr2 ++ tr3)
      else
        let db2 := db1.rollbackTx
        let tr4 := match current_config, node with
          | some cur, some _ => [Request.patchGlobal cur]
          | _, _ => []
        (.failed current_config.isSome, db2, tr1 ++ tr2 ++ tr3 ++ tr4)

end ConfigManager

/-! ## Lemmas: the sorted-key dump is invariant under mapping equality -/

theorem alookup_eq_some_of_mem_nodup {k : String} {v : Yaml} {l : List (String × Yaml)}
    (hn : (l.map Prod.fst).Nodup) (hm : (k, v) ∈ l) : alookup k l = some v := by
  induction l with
  | nil => simp at hm
  | cons kv rest ih =>
    obtain ⟨k', v'⟩ := kv
    simp only [List.map_cons, List.nodup_cons] at hn
    rcases List.mem_cons.mp hm with h | h
    · obtain ⟨rfl, rfl⟩ := Prod.mk.injEq .. ▸ h
      · simp [alookup]
    · have hk : k ≠ k' := by
        rintro rfl
        exact hn.1 (List.mem_map.mpr ⟨(k, v), h, rfl⟩)
      simp [alookup, hk]
      exact ih hn.2 h

theorem mem_keys_of_alookup {k : String} {v : Yaml} {l : List (String × Yaml)}
    (h : alookup k l = some v) : k ∈ l.map Prod.fst :=
  List.mem_map.mpr ⟨(k, v), alookup_mem h, rfl⟩

theorem alookup_isSome_of_mem_keys {k : String} {l : List (String × Yaml)}
    (h : k ∈ l.map Prod.fst) : ∃ v, alookup k l = some v := by
  induction l with
  | nil => simp at h
  | cons kv rest ih =>
    obtain ⟨k', v'⟩ := kv
    by_cases hk : k = k'
    · exact ⟨v', by simp [alookup, hk]⟩
    · simp only [List.map_cons, List.mem_cons] at h
      rcases h with h | h
      · exact absurd h hk
      · obtain ⟨v, hv⟩ := ih h
        exact ⟨v, by simp [alookup, hk, hv]⟩


theorem eqv_map_elim {kvs kvs' : List (String × Yaml)}
    (h : Yaml.eqv (.map kvs) (.map kvs') = true) :
    (∀ k ∈ kvs.map Prod.fst, k ∈ kvs'.map Prod.fst) ∧
    (∀ k ∈ kvs'.map Prod.fst, k ∈ kvs.map Prod.fst) ∧
    (∀ p ∈ kvs, ∃ v', alookup p.1 kvs' = some v' ∧ Yaml.eqv p.2 v' = true) := by
  rw [Yaml.eqv] at h
  simp only [Bool.and_eq_true, List.all_eq_true] at h
  obtain ⟨⟨h1, h2⟩, h3⟩ := h
  refine ⟨?_, ?_, ?_⟩
  · intro k hk
    have := h1 k hk
    simpa using this
  · intro k hk
    have := h2 k hk
    simpa using this
  · intro p hp
    have := h3 ⟨p, hp⟩ (List.mem_attach _ _)
    cases hx : alookup p.1 kvs' with
    | none => rw [hx] at this; simp at this
    | some v' =>
        rw [hx] at this
        exact ⟨v', rfl, this⟩

theorem wf_map_elim {kvs : List (String × Yaml)}
    (h : Yaml.wf (.map kvs) = true) :
    (kvs.map Prod.fst).Nodup ∧ ∀ p ∈ kvs, Yaml.wf p.2 = true := by
  rw [Yaml.wf] at h
  simp only [Bool.and_eq_true, List.all_eq_true, decide_eq_true_eq] at h
  exact ⟨h.1, fun p hp => h.2 ⟨p, hp⟩ (List.mem_attach _ _)⟩

theorem wf_list_elim {xs : List Yaml}
    (h : Yaml.wf (.list xs) = true) : ∀ x ∈ xs, Yaml.wf x = true := by
  rw [Yaml.wf] at h
  simp only [List.all_eq_true] at h
  exact fun x hx => h ⟨x, hx⟩ (List.mem_attach _ _)

theorem eqv_list_elim {xs ys : List Yaml}
    (h : Yaml.eqv (.list xs) (.list ys) = true) :
    xs.length = ys.length ∧ ∀ p ∈ xs.zip ys, Yaml.eqv p.1 p.2 = true := by
  rw [Yaml.eqv] at h
  simp only [Bool.and_eq_true, List.all_eq_true, beq_iff_eq] at h
  exact ⟨h.1, fun p hp => h.2 ⟨p, hp⟩ (List.mem_attach _ _)⟩


theorem eq_of_perm_of_sorted_keys {l₁ l₂ : List (String × String)}
    (hp : l₁.Perm l₂)
    (hs₁ : l₁.Pairwise (fun p q => keyLE p q = true))
    (hs₂ : l₂.Pairwise (fun p q => keyLE p q = true))
    (hn₂ : (l₂.map Prod.fst).Nodup) : l₁ = l₂ := by
  induction l₁ generalizing l₂ with
  | nil => exact (hp.nil_eq)
  | cons x t ih =>
    cases l₂ with
    | nil => exact absurd hp.symm (by simp)
    | cons y t₂ =>
      have hxmem : x ∈ y :: t₂ := hp.mem_iff.mp (List.mem_cons_self x t)
      have hymem : y ∈ x :: t := hp.symm.mem_iff.mp (List.mem_cons_self y t₂)
      have hxy : x = y := by
        rcases List.mem_cons.mp hxmem with h | hx2
        · exact h
        · have h1 : keyLE y x = true := (List.pairwise_cons.mp hs₂).1 x hx2
          have h2 : keyLE x y = true := by
            rcases List.mem_cons.mp hymem with h | hy2
            · rw [h]
              simp [keyLE]
            · exact (List.pairwise_cons.mp hs₁).1 y hy2
          have hk : x.1 = y.1 := le_antisymm (by simpa [keyLE] using h2) (by simpa [keyLE] using h1)
          exfalso
          have : y.1 ∈ t₂.map Prod.fst := List.mem_map.mpr ⟨x, hx2, hk⟩
          exact (List.nodup_cons.mp (by simpa using hn₂)).1 this
      subst hxy
      have htp : t.Perm t₂ := hp.cons_inv
      have := ih htp (List.pairwise_cons.mp hs₁).2 (List.pairwise_cons.mp hs₂).2
        (List.nodup_cons.mp (by simpa using hn₂)).2
      rw [this]


theorem attach_map_dump (xs : List Yaml) :
    (xs.attach.map (fun x => dumpYaml x.1)) = xs.map dumpYaml :=
  List.attach_map_val xs dumpYaml

theorem attach_map_pair (kvs : List (String × Yaml)) :
    (kvs.attach.map (fun kv => (kv.1.1, dumpYaml kv.1.2))) =
      kvs.map (fun kv => (kv.1, dumpYaml kv.2)) :=
  List.attach_map_val kvs (fun kv => (kv.1, dumpYaml kv.2))

theorem sizeOf_val_lt_map {k : String} {v : Yaml} {kvs : List (String × Yaml)}
    (h : (k, v) ∈ kvs) : sizeOf v < sizeOf (Yaml.map kvs) := by
  have := List.sizeOf_lt_of_mem h
  simp at *
  omega

theorem dump_eq_of_eqv_aux :
    ∀ n : Nat, ∀ a b : Yaml, sizeOf a + sizeOf b ≤ n →
      Yaml.wf a = true → Yaml.wf b = true → Yaml.eqv a b = true →
      dumpYaml a = dumpYaml b := by
  intro n
  induction n using Nat.strong_induction_on with
  | _ n ih =>
  intro a b hsz hwa hwb he
  cases a <;> cases b <;> try (simp [Yaml.eqv] at he; done)
  case null.null => rfl
  case bool.bool x y =>
      rw [Yaml.eqv] at he
      simp at he
      rw [he]
  case int.int x y =>
      rw [Yaml.eqv] at he
      simp at he
      rw [he]
  case str.str x y =>
      rw [Yaml.eqv] at he
      simp at he
      rw [he]
  case list.list xs ys =>
      obtain ⟨hlen, hz⟩ := eqv_list_elim he
      have hwxs := wf_list_elim hwa
      have hwys := wf_list_elim hwb
      have hb : ∀ x ∈ xs, ∀ y ∈ ys, sizeOf x + sizeOf y < n := by
        intro x hx y hy
        have h1 := List.sizeOf_lt_of_mem hx
        have h2 := List.sizeOf_lt_of_mem hy
        simp at hsz
        omega
      have hmap : xs.map dumpYaml = ys.map dumpYaml := by
        clear he hwa hwb hsz
        induction xs generalizing ys with
        | nil =>
            cases ys with
            | nil => rfl
            | cons _ _ => simp at hlen
        | cons x txs ihx =>
            cases ys with
            | nil => simp at hlen
            | cons y tys =>
                simp only [List.map_cons]
                have h1 : dumpYaml x = dumpYaml y := by
                  exact ih (sizeOf x + sizeOf y)
                    (hb x (by simp) y (by simp)) x y le_rfl
                    (hwxs x (by simp)) (hwys y (by simp))
                    (hz (x, y) (by simp [List.zip_cons_cons]))
                rw [h1]
                have h2 : txs.map dumpYaml = tys.map dumpYaml := by
                  apply ihx
                  · simpa using hlen
                  · intro p hp
                    exact hz p (by simp [List.zip_cons_cons]; right; exact hp)
                  · intro u hu
                    exact hwxs u (by simp [hu])
                  · intro u hu
                    exact hwys u (by simp [hu])
                  · intro u hu w hw
                    exact hb u (by simp [hu]) w (by simp [hw])
                rw [h2]
      simp only [dumpYaml]
      rw [attach_map_dump, attach_map_dump, hmap]
  case map.map kvs kvs2 =>
      obtain ⟨hk1, hk2, hv⟩ := eqv_map_elim he
      obtain ⟨hn1, hw1⟩ := wf_map_elim hwa
      obtain ⟨hn2, hw2⟩ := wf_map_elim hwb
      have hperm : List.Perm (kvs.map (fun kv => (kv.1, dumpYaml kv.2)))
          (kvs2.map (fun kv => (kv.1, dumpYaml kv.2))) := by
        apply (List.perm_ext_iff_of_nodup ?_ ?_).mpr
        · rintro ⟨k, d⟩
          constructor
          · intro hm
            obtain ⟨⟨k0, v⟩, hmem, heq⟩ := List.mem_map.mp hm
            simp only [Prod.mk.injEq] at heq
            obtain ⟨rfl, rfl⟩ := heq
            obtain ⟨v2, hlk, hev⟩ := hv (k0, v) hmem
            have hvd : dumpYaml v = dumpYaml v2 := by
              apply ih (sizeOf v + sizeOf v2) ?_ v v2 le_rfl
                (hw1 (k0, v) hmem) (hw2 (k0, v2) (alookup_mem hlk)) hev
              have s1 := sizeOf_val_lt_map hmem
              have s2 := sizeOf_val_lt_map (alookup_mem hlk)
              omega
            exact List.mem_map.mpr ⟨(k0, v2), alookup_mem hlk, by simp [hvd]⟩
          · intro hm
            obtain ⟨⟨k0, v2⟩, hmem, heq⟩ := List.mem_map.mp hm
            simp only [Prod.mk.injEq] at heq
            obtain ⟨rfl, rfl⟩ := heq
            have hkk : k0 ∈ kvs.map Prod.fst :=
              hk2 k0 (List.mem_map.mpr ⟨(k0, v2), hmem, rfl⟩)
            obtain ⟨v, hlkv⟩ := alookup_isSome_of_mem_keys hkk
            have hmemv : (k0, v) ∈ kvs := alookup_mem hlkv
            obtain ⟨v2x, hlk2, hev⟩ := hv (k0, v) hmemv
            have h2 := alookup_eq_some_of_mem_nodup hn2 hmem
            rw [h2] at hlk2
            have hv2x := Option.some.inj hlk2
            subst hv2x
            have hvd : dumpYaml v = dumpYaml v2 := by
              apply ih (sizeOf v + sizeOf v2) ?_ v v2 le_rfl
                (hw1 (k0, v) hmemv) (hw2 (k0, v2) hmem) hev
              have s1 := sizeOf_val_lt_map hmemv
              have s2 := sizeOf_val_lt_map hmem
              omega
            exact List.mem_map.mpr ⟨(k0, v), hmemv, by simp [hvd]⟩
        · apply List.Nodup.of_map Prod.fst
          have : (kvs.map (fun kv => (kv.1, dumpYaml kv.2))).map Prod.fst = kvs.map Prod.fst := by
            simp [List.map_map, Function.comp]
          rw [this]
          exact hn1
        · apply List.Nodup.of_map Prod.fst
          have : (kvs2.map (fun kv => (kv.1, dumpYaml kv.2))).map Prod.fst = kvs2.map Prod.fst := by
            simp [List.map_map, Function.comp]
          rw [this]
          exact hn2
      have keyLE_trans : ∀ (a b c : String × String), keyLE a b → keyLE b c → keyLE a c := by
        intro p q r h1 h2
        simp only [keyLE, decide_eq_true_eq] at *
        exact le_trans h1 h2
      have keyLE_total : ∀ (a b : String × String), keyLE a b || keyLE b a := by
        intro p q
        rcases le_total p.1 q.1 with h | h
        · simp [keyLE, h]
        · simp [keyLE, h]
      have hsorteq :
          (kvs.map (fun kv => (kv.1, dumpYaml kv.2))).mergeSort keyLE =
          (kvs2.map (fun kv => (kv.1, dumpYaml kv.2))).mergeSort keyLE := by
        apply eq_of_perm_of_sorted_keys
        · exact ((List.mergeSort_perm _ keyLE).trans hperm).trans
            (List.mergeSort_perm _ keyLE).symm
        · exact List.sorted_mergeSort keyLE_trans keyLE_total _
        · exact List.sorted_mergeSort keyLE_trans keyLE_total _
        · have hpm : List.Perm (((kvs2.map (fun kv => (kv.1, dumpYaml kv.2))).mergeSort keyLE).map Prod.fst)
              ((kvs2.map (fun kv => (kv.1, dumpYaml kv.2))).map Prod.fst) :=
            (List.mergeSort_perm _ keyLE).map Prod.fst
          apply hpm.nodup_iff.mpr
          have : (kvs2.map (fun kv => (kv.1, dumpYaml kv.2))).map Prod.fst = kvs2.map Prod.fst := by
            simp [List.map_map, Function.comp]
          rw [this]
          exact hn2
      simp only [dumpYaml]
      rw [attach_map_pair, attach_map_pair, hsorteq]

/-- The dump respects mapping equality on well-formed values. -/
theorem dump_eq_of_eqv {a b : Yaml} (hwa : Yaml.wf a = true) (hwb : Yaml.wf b = true)
    (he : Yaml.eqv a b = true) : dumpYaml a = dumpYaml b :=
  dump_eq_of_eqv_aux (sizeOf a + sizeOf b) a b le_rfl hwa hwb he

/-! ## Fleet Synchronizer (`fleet_manager.py`, class `FleetManager`)

`sync_node_streams` reconciles one node's reported paths with the local
`Stream` rows; `rolling_update` drives `ConfigManager.apply` across the
fleet in batches. -/

namespace FleetManager

/-- The `source` object of one path in a `/v3/paths/list` reply
(`type` defaults to `""` when absent, as `source.get('type', '')`). -/
structure SyncSource where
  stype : String
  sid : Option String

/-- One item of a `/v3/paths/list` reply.  `name = none` or `some ""` is
falsy and skipped by the sync loop; an absent `source` key is `none`
(`path_data.get('source', {})`). -/
structure SyncPathData where
  name : Option String
  source : Option SyncSource

/-- A local `Stream` row (the fields the fleet sync touches). -/
structure DbStream where
  node_id : Nat
  path : String
  name : String
  source_url : Option String
  protocol : String
  status : String

/-- A `MediaMTXNode` row (the fields the fleet code reads/writes). -/
structure FNode where
  id : Nat
  name : String
  is_active : Bool
  environment : Option String
  last_seen : Option Int

/-- Outcome of one HTTP GET: the request raised, or returned a status
with a decoded body. -/
inductive HttpResult (α : Type) where
  | exn
  | reply (status : Nat) (body : α)

/-- `FleetManager._detect_protocol`: substring tests on
`source.get('type', '').lower()`. -/
def containsSub (hay needle : String) : Bool :=
  decide (List.IsInfix needle.toList hay.toList)

def detect_protocol (p : SyncPathData) : String :=
  let source_type := (p.source.map (fun s => s.stype)).getD ""
  if containsSub source_type.toLower "rtsp" then "rtsp"
  else if containsSub source_type.toLower "rtmp" then "rtmp"
  else if containsSub source_type.toLower "webrtc" then "webrtc"
  else if containsSub source_type.toLower "hls" then "hls"
  else "unknown"

/-- `path_data.get('source', {}).get('id')`. -/
def sourceId (p : SyncPathData) : Option String := p.source.bind (fun s => s.sid)

/-- Upsert one reported path as a `Stream`: update the row matching
`(node_id, path)` — unique in the schema — or append a new one with
status `unknown`.  Returns whether a row existed. -/
def upsertOne (node_id : Nat) (streams : List DbStream) (p : SyncPathData)
    (path_name : String) : List DbStream × Bool :=
  if streams.any (fun s => s.node_id == node_id && s.path == path_name) then
    (streams.map (fun s =>
      if s.node_id == node_id && s.path == path_name then
        { s with source_url := sourceId p }
      else s), true)
  else
    (streams ++ [{ node_id := node_id, path := path_name, name := path_name,
                   source_url := sourceId p, protocol := detect_protocol p,
                   status := "unknown" }], false)

/-- The success-shaped result dict of `sync_node_streams`.  Note its exact
keys: `success, node_id, node_name, total_paths, synced, created, updated`
— the source returns no `deleted` count. -/
structure SyncResult where
  success : Bool
  total_paths : Nat
  synced : Nat
  created : Nat
  updated : Nat

inductive SyncOutcome where
  | failed
  | ok (r : SyncResult)

/--
`FleetManager.sync_node_streams`: fetch `/v3/paths/list`; on a 200,
upsert every truthy-named path and update `node.last_seen`.  The loop
never deletes a row: a local `Stream` whose path is absent from the reply
is left in place, and the result carries no `deleted` count.
-/
def sync_node_streams (node : FNode) (now : Int)
    (reply : HttpResult (List SyncPathData)) (streams : List DbStream) :
    SyncOutcome × List DbStream × FNode :=
  match reply with
  | .exn => (.failed, streams, node)
  | .reply status items =>
      if status ≠ 200 then (.failed, streams, node)
      else
        let step := fun (acc : List DbStream × Nat × Nat × Nat) (p : SyncPathData) =>
          let (strs, synced, created, updated) := acc
          match p.name with
          | none => acc
          | some "" => acc
          | some path_name =>
              let (strs2, existed) := upsertOne node.id strs p path_name
              if existed then (strs2, synced + 1, created, updated + 1)
              else (strs2, synced + 1, created + 1, updated)
        let (strs, synced, created, updated) := items.foldl step (streams, 0, 0, 0)
        (.ok ⟨true, items.length, synced, created, updated⟩, strs,
         { node with last_seen := some now })

/-- A fleet node together with its control-API behaviour. -/
structure FleetNode where
  id : Nat
  name : String
  is_active : Bool
  environment : Option String
  env : ConfigManager.NodeEnv

/-- One observable event of a rolling update: a request received by a
node, or a sleep between batches. -/
inductive FleetEvt where
  | req (node_id : Nat) (r : ConfigManager.Request)
  | sleep (seconds : ℚ)

def FleetEvt.isSleep : FleetEvt → Bool
  | .sleep _ => true
  | .req _ _ => false

/-- Node ids of the requests in a trace. -/
def reqNodeIds (evts : List FleetEvt) : List Nat :=
  evts.filterMap (fun e => match e with
    | .req i _ => some i
    | .sleep _ => none)

/-- `nodes[i:i+batch_size] for i in range(0, len(nodes), batch_size)`.
A zero `batch_size` raises `ValueError` in the source; the model returns
no batches for it and the theorems assume `0 < batch_size`. -/
def chunks (bs : Nat) (l : List α) : List (List α) :=
  if h : bs = 0 then []
  else match l with
    | [] => []
    | a :: t => ((a :: t).take bs) :: chunks bs ((a :: t).drop bs)
termination_by l.length
decreasing_by
  simp
  omega

/-- Apply the snapshot config to every node of one batch in order,
threading the session, collecting request events and counting failures
(`batch_failed`). -/
def runBatch (cfg : Yaml) (environment : Option String) (batch_num : Nat) :
    List FleetNode → ConfigManager.DBState →
    ConfigManager.DBState × List FleetEvt × Nat
  | [], db => (db, [], 0)
  | n :: rest, db =>
      let (res, db1, tr) := ConfigManager.applyConfig (some n.env) (some n.id)
        (some cfg) (some ("Rolling update batch " ++ toString (batch_num + 1))) db
      let (db2, evts, failed) := runBatch cfg environment batch_num rest db1
      (db2, tr.map (fun r => FleetEvt.req n.id r) ++ evts,
       (if res.success then 0 else 1) + failed)

/-- The batch loop of `rolling_update`: abort after the first batch with
a failure (`some completed_batches`), otherwise sleep
`delay_between_batches` before each following batch. -/
def runBatches (cfg : Yaml) (environment : Option String) (delay : ℚ) :
    Nat → ConfigManager.DBState → List (List FleetNode) →
    Option Nat × ConfigManager.DBState × List FleetEvt
  | _, db, [] => (none, db, [])
  | batch_num, db, batch :: rest =>
      let (db2, evts, failed) := runBatch cfg environment batch_num batch db
      if failed > 0 then (some (batch_num + 1), db2, evts)
      else
        match rest with
        | [] => (none, db2, evts)
        | r :: rs =>
            let (out, db3, evts2) :=
              runBatches cfg environment delay (batch_num + 1) db2 (r :: rs)
            (out, db3, evts ++ [FleetEvt.sleep delay] ++ evts2)

/-- The target nodes of a rolling update: active, and in the given
environment when one is given. -/
def filteredNodes (environment : Option String) (allNodes : List FleetNode) :
    List FleetNode :=
  (allNodes.filter (fun n => n.is_active)).filter (fun n =>
    match environment with
    | some e => n.environment == some e
    | none => true)

/-- Outcome shape of `rolling_update`. -/
inductive RUOutcome where
  | noSnapshot
  | noNodes
  | aborted (completed_batches : Nat)
  | ok (total_nodes batches : Nat)

/--
`FleetManager.rolling_update`: resolve the snapshot, filter active nodes
(and by environment when given), partition into batches of `batch_size`,
apply batch by batch, abort on the first batch with any failure, sleep
`delay_between_batches` between successive batches.
-/
def rolling_update (snapshot : Option ConfigManager.Snapshot)
    (environment : Option String) (batch_size : Nat) (delay : ℚ)
    (allNodes : List FleetNode) (db : ConfigManager.DBState) :
    RUOutcome × ConfigManager.DBState × List FleetEvt :=
  match snapshot with
  | none => (.noSnapshot, db, [])
  | some snap =>
      let nodes := filteredNodes environment allNodes
      if nodes.isEmpty then (.noNodes, db, [])
      else
        let batches := chunks batch_size nodes
        match runBatches snap.config_yaml environment delay 0 db batches with
        | (some k, db2, evts) => (.aborted k, db2, evts)
        | (none, db2, evts) => (.ok nodes.length batches.length, db2, evts)

/-- A node's apply succeeds in a rolling update iff the snapshot config
validates and the node answers the PATCH with 200/204 (independent of the
session and notes). -/
def nodeApplyOk (cfg : Yaml) (n : FleetNode) : Bool :=
  (ConfigManager.validate (some cfg)).valid &&
    decide (n.env.patchStatus cfg ∈ [200, 204])

end FleetManager

/-! ## Remediation Engine (`auto_remediation.py`, class `AutoRemediation`)

Timestamps are seconds as `Int`.  The node's behaviour during a run is a
`RemEnv`; the requests a run sends to the node form a trace.  Sleeps
between attempts (`calculate_backoff`) order events in time but touch no
state the claims mention and are not traced. -/

namespace AutoRemediation

/-- A `Stream` row (the fields the remediation engine touches). -/
structure RStream where
  id : Nat
  path : String
  source_url : Option String
  auto_remediate : Bool
  remediation_count : Nat
  last_remediation : Option Int
  node_name : String

/-- A `StreamEvent` row. -/
structure REvent where
  stream_id : Nat
  event_type : String
  severity : String
  message : String
  details : List String
  created_at : Int

/-- One recorded attempt (`RemediationResult.to_dict()` minus the wall
clock timestamp). -/
structure AttemptRec where
  success : Bool
  action : String
  message : String

/-- One item of a sessions list reply. -/
structure SessionInfo where
  path : String
  id : String

/-- A request the engine sends to the node (or the container runtime). -/
inductive NodeReq where
  | listSessions (session_type : String)
  | kickSession (session_type : String) (id : String)
  | getPathConfig (path : String)
  | deletePath (path : String)
  | addPath (path : String) (body : Yaml)
  | dockerRestart (container : String)

/-- The node's behaviour during a run: statuses and bodies for each kind
of request the four tiers send. -/
structure RemEnv where
  listStatus : String → Nat
  sessionItems : String → List SessionInfo
  kickStatus : String → String → Nat
  getPathConfigStatus : Nat
  pathConfigBody : Yaml
  deleteStatus : Nat
  addPathStatus : Yaml → Nat
  dockerReturncode : Nat

/-- The retry configuration (`self.config` defaults). -/
structure RemConfig where
  max_attempts : Nat

def defaultRemConfig : RemConfig := ⟨5⟩

/-- `AutoRemediation._try_reconnect`: list RTSP and RTSPS sessions, kick
every session bound to the stream's path; success iff at least one kick
returned 200/204. -/
def try_reconnect (env : RemEnv) (s : RStream) (attempt : Nat) :
    AttemptRec × List NodeReq :=
  let step := fun (acc : Nat × List NodeReq) (stype : String) =>
    let (kicked, tr) := acc
    let tr := tr ++ [NodeReq.listSessions stype]
    if env.listStatus stype == 200 then
      (env.sessionItems stype).foldl (fun (acc2 : Nat × List NodeReq) sess =>
        let (k, t) := acc2
        if sess.path == s.path && sess.id != "" then
          let t := t ++ [NodeReq.kickSession stype sess.id]
          if env.kickStatus stype sess.id ∈ [200, 204] then (k + 1, t) else (k, t)
        else (k, t)) (kicked, tr)
    else (kicked, tr)
  let (kicked, tr) := ["rtspsessions", "rtspssessions"].foldl step (0, [])
  if kicked > 0 then
    ({ success := true, action := "reconnect",
       message := "Successfully kicked " ++ toString kicked ++
         " session(s) on attempt " ++ toString (attempt + 1) }, tr)
  else
    ({ success := false, action := "reconnect",
       message := "No active sessions found to kick, escalating to next level" }, tr)

/-- `AutoRemediation._try_restart_sidecar`: read the path config, delete
the path, re-add it with the same body. -/
def try_restart_sidecar (env : RemEnv) (s : RStream) (attempt : Nat) :
    AttemptRec × List NodeReq :=
  let tr := [NodeReq.getPathConfig s.path]
  if env.getPathConfigStatus ≠ 200 then
    ({ success := false, action := "restart_sidecar",
       message := "Failed to get path config: HTTP " ++ toString env.getPathConfigStatus }, tr)
  else
    let tr := tr ++ [NodeReq.deletePath s.path]
    if env.deleteStatus ∉ [200, 204] then
      ({ success := false, action := "restart_sidecar",
         message := "Failed to delete path: HTTP " ++ toString env.deleteStatus }, tr)
    else
      let tr := tr ++ [NodeReq.addPath s.path env.pathConfigBody]
      if env.addPathStatus env.pathConfigBody ∉ [200, 201, 204] then
        ({ success := false, action := "restart_sidecar",
           message := "Failed to re-add path: HTTP " ++
             toString (env.addPathStatus env.pathConfigBody) }, tr)
      else
        ({ success := true, action := "restart_sidecar",
           message := "Successfully restarted sidecar on attempt " ++ toString (attempt + 1) }, tr)

/-- `AutoRemediation._try_restart_path`: delete the path (ignoring the
status — "path might not exist, which is OK"), then recreate it with
`{source: source_url}` — but only when the stream has a `source_url`;
without one the delete has already been sent and the attempt fails. -/
def try_restart_path (env : RemEnv) (s : RStream) (attempt : Nat) :
    AttemptRec × List NodeReq :=
  let tr := [NodeReq.deletePath s.path]
  match s.source_url with
  | some url =>
      let body := Yaml.map [("source", .str url)]
      let tr := tr ++ [NodeReq.addPath s.path body]
      if env.addPathStatus body ∈ [200, 201, 204] then
        ({ success := true, action := "restart_path",
           message := "Successfully restarted path on attempt " ++ toString (attempt + 1) }, tr)
      else
        ({ success := false, action := "restart_path",
           message := "Failed to recreate path: HTTP " ++
             toString (env.addPathStatus body) }, tr)
  | none =>
      ({ success := false, action := "restart_path",
         message := "No source URL configured for stream" }, tr)

/-- `AutoRemediation._try_restart_mediamtx`: restart the container
`mediamtx-{node.name}`; success iff the command exits 0. -/
def try_restart_mediamtx (env : RemEnv) (s : RStream) (attempt : Nat) :
    AttemptRec × List NodeReq :=
  let tr := [NodeReq.dockerRestart ("mediamtx-" ++ s.node_name)]
  if env.dockerReturncode == 0 then
    ({ success := true, action := "restart_mediamtx",
       message := "Successfully restarted MediaMTX on attempt " ++ toString (attempt + 1) }, tr)
  else
    ({ success := false, action := "restart_mediamtx",
       message := "MediaMTX restart failed" }, tr)

/-- `AutoRemediation._determine_start_level`: count `remediation_started`
events for this stream in the last hour. -/
def determine_start_level (now : Int) (events : List REvent) (s : RStream) : Nat :=
  let recent := (events.filter (fun e =>
    e.stream_id == s.id && e.event_type == "remediation_started" &&
    decide (now - 3600 ≤ e.created_at))).length
  if 5 ≤ recent then 3
  else if 2 ≤ recent then 2
  else 1

/-- The `for attempt in range(max_attempts)` loop of one tier: run the
handler, record the attempt, stop on the first success. -/
def runAttempts (handler : Nat → AttemptRec × List NodeReq) :
    Nat → Nat → List AttemptRec × List NodeReq × Bool
  | 0, _ => ([], [], false)
  | fuel + 1, i =>
      let (rec, tr) := handler i
      if rec.success then ([rec], tr, true)
      else
        let (rs, trs, ok) := runAttempts handler fuel (i + 1)
        (rec :: rs, tr ++ trs, ok)

/-- The tier loop of `remediate_stream`: skip tiers below the start
level, run each tier's attempts, stop at the first successful tier. -/
def runLevels (start_level max_attempts : Nat) :
    List (Nat × (Nat → AttemptRec × List NodeReq)) →
    List AttemptRec × List NodeReq × Bool
  | [] => ([], [], false)
  | (level, handler) :: rest =>
      if level < start_level then runLevels start_level max_attempts rest
      else
        let (rs, tr, ok) := runAttempts handler max_attempts 0
        if ok then (rs, tr, true)
        else
          let (rs2, tr2, ok2) := runLevels start_level max_attempts rest
          (rs ++ rs2, tr ++ tr2, ok2)

/-- Everything a remediation run produces: the result dict, the two
bracketing events appended to the store, the updated stream row and the
trace of node requests. -/
structure RemOutcome where
  success : Bool
  attempts : List AttemptRec
  emitted : List REvent
  stream : RStream
  trace : List NodeReq

/--
`AutoRemediation.remediate_stream`: emit `remediation_started`, determine
the start tier (unless forced), run the four tiers with up to
`max_attempts` attempts each, update `remediation_count` and
`last_remediation`, and emit exactly one `remediation_success` /
`remediation_failed` event carrying the ordered attempt list.
-/
def remediate_stream (cfg : RemConfig) (env : RemEnv) (now : Int)
    (events : List REvent) (s : RStream) (force_level : Option Nat) : RemOutcome :=
  let start_event : REvent :=
    { stream_id := s.id, event_type := "remediation_started", severity := "info",
      message := "Starting remediation for stream " ++ s.path,
      details := [], created_at := now }
  let start_level := force_level.getD (determine_start_level now events s)
  let actions : List (Nat × (Nat → AttemptRec × List NodeReq)) :=
    [(1, try_reconnect env s), (2, try_restart_sidecar env s),
     (3, try_restart_path env s), (4, try_restart_mediamtx env s)]
  let (results, trace, success) := runLevels start_level cfg.max_attempts actions
  let end_event : REvent :=
    { stream_id := s.id,
      event_type := if success then "remediation_success" else "remediation_failed",
      severity := if success then "info" else "error",
      message := "Remediation " ++ (if success then "succeeded" else "failed") ++
        " for stream " ++ s.path,
      details := results.map (fun r => r.message), created_at := now }
  { success := success, attempts := results,
    emitted := [start_event, end_event],
    stream := { s with remediation_count := s.remediation_count + 1,
                       last_remediation := some now },
    trace := trace }

/-- `AutoRemediation.should_auto_remediate`: the `auto_remediate` flag,
the five-minute cooldown, and the one-hour/10-failure circuit breaker. -/
def should_auto_remediate (now : Int) (events : List REvent) (s : RStream) : Bool :=
  if !s.auto_remediate then false
  else if (match s.last_remediation with
           | some t => decide (now - t < 300)
           | none => false) then false
  else if 10 ≤ (events.filter (fun e =>
      e.stream_id == s.id && e.event_type == "remediation_failed" &&
      decide (now - 3600 ≤ e.created_at))).length then false
  else true

end AutoRemediation

/-! ## Retention Engine (`retention_manager.py`, class `RetentionManager`)

The store is the list of `Recording` rows; the filesystem is the list of
existing file paths.  `_get_disk_usage` reads the real disk and is
modelled as an input that the loop never refreshes, exactly as the
source keeps using its one stale reading.  File and row deletes are
modelled as always succeeding (the source swallows per-file errors; the
claims describe the error-free runs). -/

namespace RetentionManager

/-- A `Recording` row (the fields cleanup touches).  `expires_at` is
nullable; the SQL filter `expires_at <= now` excludes NULL. -/
structure Recording where
  id : Nat
  file_path : String
  file_size : Option Nat
  start_time : Int
  expires_at : Option Int
  is_archived : Bool
  segment_type : String

/-- The one disk-usage reading the cleanup takes. -/
structure DiskUsage where
  usage_percent : ℚ
  free_gb : ℚ

/-- Store plus filesystem. -/
structure RetState where
  recordings : List Recording
  fs : List String

/-- One entry of the returned `deleted` list. -/
structure Victim where
  id : Nat
  file_path : String
  size : Option Nat
  reason : String

/-- The expired-pass predicate:
`expires_at <= now AND is_archived IS false`. -/
def expiredPred (now : Int) (r : Recording) : Bool :=
  (match r.expires_at with
   | some t => decide (t ≤ now)
   | none => false) && !r.is_archived

/-- The disk-pressure candidate predicate:
`segment_type == "continuous" AND is_archived == false`. -/
def pressurePred (r : Recording) : Bool :=
  r.segment_type == "continuous" && !r.is_archived

/-- Remove a path from the filesystem (`os.remove` guarded by
`os.path.exists`). -/
def fsRemove (fs : List String) (path : String) : List String :=
  fs.filter (fun p => p ≠ path)

/-- Order used by `ORDER BY start_time`. -/
def byStart (a b : Recording) : Bool := a.start_time ≤ b.start_time

/-- The emergency loop over the oldest continuous recordings: the break
condition re-reads the same stale `free_gb`, so it either stops at once
or consumes the whole batch. -/
def pressureLoop (dry_run : Bool) (free_gb min_free : ℚ) :
    List Recording → RetState → List Victim × Nat → RetState × List Victim × Nat
  | [], st, acc => (st, acc)
  | r :: rest, st, (victims, freed) =>
      if min_free ≤ free_gb then (st, victims, freed)
      else
        let victim : Victim := ⟨r.id, r.file_path, r.file_size, "disk_pressure"⟩
        if dry_run then
          pressureLoop dry_run free_gb min_free rest st (victims ++ [victim], freed)
        else
          pressureLoop dry_run free_gb min_free rest
            { recordings := st.recordings.filter (fun q => q.id ≠ r.id),
              fs := fsRemove st.fs r.file_path }
            (victims ++ [victim], freed + r.file_size.getD 0)

/-- Result dict of `cleanup` (sizes in bytes; the source reports GB). -/
structure CleanupResult where
  dry_run : Bool
  deleted_count : Nat
  freed_bytes : Nat
  deleted : List Victim

/--
`RetentionManager.cleanup`: pass 1 deletes every expired non-archived
recording (file then row); pass 2, when the disk reading is at or over
the threshold, deletes the oldest 100 continuous non-archived recordings
until the (never-refreshed) `free_gb` reaches `min_free_space_gb`.  With
`dry_run` both passes only collect the would-be victims.
-/
def cleanup (threshold min_free : ℚ) (now : Int) (dry_run : Bool)
    (disk : DiskUsage) (st : RetState) : CleanupResult × RetState :=
  let expired := st.recordings.filter (expiredPred now)
  let victims1 := expired.map (fun r => Victim.mk r.id r.file_path r.file_size "expired")
  let freed1 := if dry_run then 0 else (expired.map (fun r => r.file_size.getD 0)).sum
  let st1 : RetState :=
    if dry_run then st
    else { recordings := st.recordings.filter (fun r => !(expiredPred now r)),
           fs := expired.foldl (fun fs r => fsRemove fs r.file_path) st.fs }
  let (st2, victims, freed) :=
    if threshold * 100 ≤ disk.usage_percent then
      let oldest := ((st1.recordings.filter pressurePred).mergeSort byStart).take 100
      pressureLoop dry_run disk.free_gb min_free oldest st1 (victims1, freed1)
    else (st1, victims1, freed1)
  (⟨dry_run, victims.length, freed, victims⟩, st2)

end RetentionManager

/-! ## Health Classifier (`health_checker.py`, class `HealthChecker`)

The fast path (`quick_check_node`) and the shared status-change event
constructor (`_create_status_change_event`). -/

namespace HealthChecker

/-- The `source` object of one path, as the fast path reads it.  A real
reply's source is either `null` (modelled `none`) or a non-empty object
with a `type` field. -/
structure HSource where
  stype : String

/-- One item of the `/v3/paths/list` reply, keyed by name. -/
structure HPathData where
  ready : Bool
  source : Option HSource
  confName : Option String
  bytesReceived : Nat

/-- A `Stream` row (the fields the fast path touches). -/
structure HStream where
  id : Nat
  path : String
  status : String
  last_check : Option Int

/-- A `StreamEvent` row created on a status change. -/
structure HEvent where
  stream_id : Nat
  event_type : String
  severity : String
  message : String

/-- `HealthChecker._create_status_change_event`: `disconnected` exactly
for a transition to `unhealthy`, `reconnected` for every other new
status; severity critical/warning/info by the new status. -/
def create_status_change_event (stream_id : Nat) (new_status old_status : String) :
    HEvent :=
  let severity :=
    if new_status = "unhealthy" then "critical"
    else if new_status = "degraded" then "warning"
    else "info"
  { stream_id := stream_id,
    event_type := if new_status = "unhealthy" then "disconnected" else "reconnected",
    severity := severity,
    message := "Stream status changed: " ++ old_status ++ " -> " ++ new_status }

/-- The per-stream classification of `quick_check_node`, with the exact
branch structure of the source (`source_type` is `''` whenever the
source object is absent, so the final `else` branch is unreachable). -/
def classifyPath (path_data : Option HPathData) : String :=
  match path_data with
  | some p =>
      let is_ready := p.ready
      let has_source := p.source.isSome
      let source_type := match p.source with
        | some src => src.stype
        | none => ""
      if is_ready then "healthy"
      else if has_source && !is_ready then "degraded"
      else if !has_source && source_type == "" then
        (match p.confName with
         | some c => if c ≠ "" then "degraded" else "unhealthy"
         | none => "unhealthy")
      else "unhealthy"
  | none => "unhealthy"

/-- Result counters of `quick_check_node`. -/
structure QuickCheckResult where
  updated : Nat
  healthy : Nat
  degraded : Nat
  unhealthy : Nat

/-- Count one stream's new status into the three counters. -/
def countStatus (acc : QuickCheckResult) (status : String) : QuickCheckResult :=
  { acc with
    updated := acc.updated + 1,
    healthy := acc.healthy + (if status = "healthy" then 1 else 0),
    degraded := acc.degraded + (if status = "degraded" then 1 else 0),
    unhealthy := acc.unhealthy + (if status = "unhealthy" then 1 else 0) }

/-- `paths_info.get(stream.path)` where `paths_info` is the dict
comprehension over the reply items: a duplicated name keeps the last
item, hence the reversed search. -/
def lookupPath (items : List (String × HPathData)) (path : String) : Option HPathData :=
  match items.reverse.find? (fun kv => kv.1 == path) with
  | some kv => some kv.2
  | none => none

/--
`HealthChecker.quick_check_node` over one node's local streams: classify
each against the reply's path map, update `last_check`, and create a
status-change event iff the stored status differs.  Returns the updated
rows, the created events and the counters.
-/
def quick_check_node (now : Int) (items : List (String × HPathData)) :
    List HStream → List HStream × List HEvent × QuickCheckResult
  | [] => ([], [], ⟨0, 0, 0, 0⟩)
  | s :: rest =>
      let old_status := s.status
      let new_status := classifyPath (lookupPath items s.path)
      let row := { s with status := new_status, last_check := some now }
      let evt := if old_status ≠ new_status then
          [create_status_change_event s.id new_status old_status]
        else []
      let (rows, evts, counts) := quick_check_node now items rest
      (row :: rows, evt ++ evts, countStatus counts new_status)

end HealthChecker

/-! ## Concrete inputs used by counterexamples and witnesses -/

/-- `{paths: {a: {source: "old"}}}` — the node's current config in the
S4 apply/rollback scenario. -/
def c1OldCfg : Yaml := .map [("paths", .map [("a", .map [("source", .str "old")])])]

/-- `{paths: {a: {source: "new"}}}` — the config being applied. -/
def c1NewCfg : Yaml := .map [("paths", .map [("a", .map [("source", .str "new")])])]

/-- A node whose GET returns the old config and whose PATCH always
returns 500. -/
def c1Env : ConfigManager.NodeEnv := ⟨some c1OldCfg, fun _ => 500⟩

/-- The node of the stale-pruning test. -/
def c2Node : FleetManager.FNode := ⟨1, "node-1", true, none, none⟩

/-- A local stream whose path no node reply mentions. -/
def c2Stale : FleetManager.DbStream :=
  ⟨1, "stale/stream", "Stale Stream", none, "unknown", "unknown"⟩

/-- A fleet node whose PATCH always fails with 500. -/
def c7NodeBad : FleetManager.FleetNode := ⟨1, "n1", true, none, ⟨none, fun _ => 500⟩⟩

/-- A fleet node whose PATCH succeeds with 200. -/
def c7NodeOk : FleetManager.FleetNode := ⟨2, "n2", true, none, ⟨none, fun _ => 200⟩⟩

/-- A valid snapshot (`{paths: {}}`) used by the rolling-update witness. -/
def c7Snap : ConfigManager.Snapshot := ⟨none, "", .map [("paths", .map [])], true, none⟩

/-! ## Claim theorems -/

/--
**C1** (corrected).  The claim asserts that a failed apply leaves the node
with exactly three requests — GET current, PATCH new, PATCH backup — and
keeps the backup `ConfigSnapshot` persisted.  On the code, `apply` first
runs `plan` (which already fetches the current config) and then fetches
again, so the node receives **two** GETs; and the failure handler calls
`db.session.rollback()`, which discards the flushed backup row, so **no**
snapshot remains persisted.  This closed run (current config
`{paths:{a:{source:"old"}}}`, new config `{paths:{a:{source:"new"}}}`,
PATCH answering 500) exhibits both: the trace is the four-element list,
which differs from the claimed three-element trace, and the persisted
snapshot list stays empty.
-/
theorem c1_apply_counterexample :
    (ConfigManager.applyConfig (some c1Env) (some 1) (some c1NewCfg) none ⟨[], []⟩ =
      (.failed true, ⟨[], []⟩,
        [.getGlobal, .getGlobal, .patchGlobal c1NewCfg, .patchGlobal c1OldCfg])) ∧
    ([ConfigManager.Request.getGlobal, .getGlobal,
      .patchGlobal c1NewCfg, .patchGlobal c1OldCfg] ≠
     [ConfigManager.Request.getGlobal, .patchGlobal c1NewCfg, .patchGlobal c1OldCfg]) := by
  constructor
  · rfl
  · intro h
    simp at h

/--
**C1** (amended).  For every apply of a valid new config to a node where
fetching the current config succeeds and the PATCH of the new config
fails, `apply` returns `{success:false, rolled_back:true}` and re-sends
the backup config; the node receives exactly GET (during plan), GET
(backup fetch), PATCH new (failing), PATCH backup (rollback); and the
session rollback leaves **no** new persisted `ConfigSnapshot` — the
flushed backup row is discarded along with the pending new snapshot.
-/
theorem c1_apply_rollback_amended (env : ConfigManager.NodeEnv)
    (node_id : Option Nat) (newCfg curCfg : Yaml) (notes : Option String)
    (db : ConfigManager.DBState)
    (hget : env.getGlobalConfig = some curCfg)
    (hval : (ConfigManager.validate (some newCfg)).valid = true)
    (hpatch : env.patchStatus newCfg ∉ [200, 204]) :
    ConfigManager.applyConfig (some env) node_id (some newCfg) notes db =
      (.failed true, ⟨db.persisted, []⟩,
       [.getGlobal, .getGlobal, .patchGlobal newCfg, .patchGlobal curCfg]) := by
  unfold ConfigManager.applyConfig ConfigManager.plan ConfigManager.fetch_current_config
  simp [hget, hval, hpatch, ConfigManager.DBState.add, ConfigManager.DBState.rollbackTx]

/-- Witness for the amended C1 at the S4 inputs. -/
theorem c1_apply_rollback_amended_witness :
    ConfigManager.applyConfig (some c1Env) (some 1) (some c1NewCfg) none ⟨[], []⟩ =
      (.failed true, ⟨[], []⟩,
       [.getGlobal, .getGlobal, .patchGlobal c1NewCfg, .patchGlobal c1OldCfg]) :=
  c1_apply_rollback_amended c1Env (some 1) c1NewCfg c1OldCfg none ⟨[], []⟩
    rfl rfl (by decide)

/--
**C2** (code bug).  The claim — and the repository's own test
`test_sync_node_streams_deletes_stale` — require `sync_node_streams` to
delete local `Stream` rows whose path is absent from the node's reply and
to return a `deleted` count.  The code does neither: at the failing input
(one local stream `stale/stream`, node reply `items=[]`), the stream
survives the sync unchanged and the result dict carries only
`{success, node_id, node_name, total_paths, synced, created, updated}`.
-/
theorem c2_sync_keeps_stale_stream :
    (FleetManager.sync_node_streams c2Node 0 (.reply 200 []) [c2Stale] =
      (.ok ⟨true, 0, 0, 0, 0⟩, [c2Stale], { c2Node with last_seen := some 0 })) ∧
    c2Stale ∈ (FleetManager.sync_node_streams c2Node 0 (.reply 200 []) [c2Stale]).2.1 := by
  exact ⟨rfl, List.mem_singleton.mpr rfl⟩

/--
**C3** (confirmed).  `should_auto_remediate(S)` is true iff the
`auto_remediate` flag is set, at least 5 minutes (300 s) have elapsed
since `last_remediation` (or the stream was never remediated), and fewer
than 10 `remediation_failed` events were recorded for the stream within
the last hour — so after 10 such events inside 60 minutes it is false
until the oldest leaves the window.
-/
theorem c3_should_auto_remediate_iff (now : Int)
    (events : List AutoRemediation.REvent) (s : AutoRemediation.RStream) :
    AutoRemediation.should_auto_remediate now events s = true ↔
      (s.auto_remediate = true ∧
       (s.last_remediation = none ∨
        ∃ t, s.last_remediation = some t ∧ 300 ≤ now - t) ∧
       (events.filter (fun e =>
          e.stream_id == s.id && e.event_type == "remediation_failed" &&
          decide (now - 3600 ≤ e.created_at))).length < 10) := by
  unfold AutoRemediation.should_auto_remediate
  cases hauto : s.auto_remediate with
  | false => simp
  | true =>
      cases hlast : s.last_remediation with
      | none =>
          by_cases hcb : 10 ≤ (events.filter (fun e =>
              e.stream_id == s.id && e.event_type == "remediation_failed" &&
              decide (now - 3600 ≤ e.created_at))).length <;>
            simp [hcb]
      | some t =>
          by_cases hcd : now - t < 300
          · simp [hcd]
          · by_cases hcb : 10 ≤ (events.filter (fun e =>
                e.stream_id == s.id && e.event_type == "remediation_failed" &&
                decide (now - 3600 ≤ e.created_at))).length <;>
              simp [hcd, hcb] <;> omega

/-- A node with no kickable sessions (tier 1 always fails), a failing
path-config read (tier 2 always fails), a 200 on every path add, and a
failing container restart. -/
def remEnvNoSessions : AutoRemediation.RemEnv :=
  { listStatus := fun _ => 200, sessionItems := fun _ => [],
    kickStatus := fun _ _ => 500, getPathConfigStatus := 500,
    pathConfigBody := .null, deleteStatus := 200,
    addPathStatus := fun _ => 200, dockerReturncode := 1 }

/-- The S3 escalation stream: a source URL is set, so tier 3 can
recreate the path. -/
def c4Stream : AutoRemediation.RStream :=
  ⟨5, "cam1", some "rtsp://source", true, 0, none, "n1"⟩

/-- A stream with no `source_url`. -/
def c5Stream : AutoRemediation.RStream :=
  ⟨7, "cam", none, true, 0, none, "n1"⟩

theorem runAttempts_all_fail
    (handler : Nat → AutoRemediation.AttemptRec × List AutoRemediation.NodeReq)
    (hfail : ∀ i, (handler i).1.success = false) :
    ∀ fuel i, (AutoRemediation.runAttempts handler fuel i).2.2 = false := by
  intro fuel
  induction fuel with
  | zero => intro i; rfl
  | succ f ih =>
      intro i
      unfold AutoRemediation.runAttempts
      rcases hh : handler i with ⟨rec, tr⟩
      have hs : rec.success = false := by
        have := hfail i
        rw [hh] at this
        exact this
      rcases hr : AutoRemediation.runAttempts handler f (i + 1) with ⟨rs, trs, ok⟩
      simp [hh, hs, hr]
      have := ih (i + 1)
      rw [hr] at this
      exact this

theorem runAttempts_head
    (handler : Nat → AutoRemediation.AttemptRec × List AutoRemediation.NodeReq)
    (fuel i : Nat) (h : 0 < fuel) :
    ∃ tail, (AutoRemediation.runAttempts handler fuel i).1 = (handler i).1 :: tail := by
  cases fuel with
  | zero => omega
  | succ f =>
      unfold AutoRemediation.runAttempts
      rcases hh : handler i with ⟨rec, tr⟩
      by_cases hs : rec.success
      · exact ⟨[], by simp [hh, hs]⟩
      · rcases hr : AutoRemediation.runAttempts handler f (i + 1) with ⟨rs, trs, ok⟩
        exact ⟨rs, by simp [hh, hs, hr]⟩

theorem runLevels_skip (sl ma lvl : Nat)
    (h : Nat → AutoRemediation.AttemptRec × List AutoRemediation.NodeReq)
    (rest : List (Nat × (Nat → AutoRemediation.AttemptRec × List AutoRemediation.NodeReq)))
    (hlt : lvl < sl) :
    AutoRemediation.runLevels sl ma ((lvl, h) :: rest) =
      AutoRemediation.runLevels sl ma rest := by
  conv_lhs => rw [AutoRemediation.runLevels]
  simp [hlt]

theorem runLevels_fail (sl ma lvl : Nat)
    (h : Nat → AutoRemediation.AttemptRec × List AutoRemediation.NodeReq)
    (rest : List (Nat × (Nat → AutoRemediation.AttemptRec × List AutoRemediation.NodeReq)))
    (hge : ¬ lvl < sl)
    (hfail : (AutoRemediation.runAttempts h ma 0).2.2 = false) :
    (AutoRemediation.runLevels sl ma ((lvl, h) :: rest)).1 =
      (AutoRemediation.runAttempts h ma 0).1 ++
        (AutoRemediation.runLevels sl ma rest).1 := by
  conv_lhs => rw [AutoRemediation.runLevels]
  simp [hge, hfail]

theorem runLevels_last (sl ma lvl : Nat)
    (h : Nat → AutoRemediation.AttemptRec × List AutoRemediation.NodeReq)
    (hge : ¬ lvl < sl) :
    (AutoRemediation.runLevels sl ma [(lvl, h)]).1 =
      (AutoRemediation.runAttempts h ma 0).1 := by
  conv_lhs => rw [AutoRemediation.runLevels]
  cases hok : (AutoRemediation.runAttempts h ma 0).2.2 <;>
    simp [hge, hok, AutoRemediation.runLevels]

theorem try_restart_mediamtx_action (env : AutoRemediation.RemEnv)
    (s : AutoRemediation.RStream) (a : Nat) :
    (AutoRemediation.try_restart_mediamtx env s a).1.action = "restart_mediamtx" := by
  unfold AutoRemediation.try_restart_mediamtx
  by_cases h : env.dockerReturncode == 0 <;> simp [h]

/--
**C5** (corrected).  The claim asserts that with `source_url` unset a run
reaching tier 3 performs **no** tier-3 side effect on the node.  On the
code, `_try_restart_path` sends the best-effort `DELETE
/v3/config/paths/delete/{path}` *before* checking `source_url`, so each
tier-3 attempt deletes the path on the node and then fails.  This closed
run (stream without source, forced to start at tier 3, default 5
attempts) sends five path deletes — the five tier-3 attempts — before
escalating to tier 4 (the five container restarts).
-/
theorem c5_tier3_counterexample :
    ((AutoRemediation.remediate_stream AutoRemediation.defaultRemConfig remEnvNoSessions
        0 [] c5Stream (some 3)).trace =
      [.deletePath "cam", .deletePath "cam", .deletePath "cam", .deletePath "cam",
       .deletePath "cam",
       .dockerRestart "mediamtx-n1", .dockerRestart "mediamtx-n1",
       .dockerRestart "mediamtx-n1", .dockerRestart "mediamtx-n1",
       .dockerRestart "mediamtx-n1"]) ∧
    AutoRemediation.NodeReq.deletePath "cam" ∈
      (AutoRemediation.remediate_stream AutoRemediation.defaultRemConfig remEnvNoSessions
        0 [] c5Stream (some 3)).trace := by
  have h : (AutoRemediation.remediate_stream AutoRemediation.defaultRemConfig remEnvNoSessions
      0 [] c5Stream (some 3)).trace =
      [.deletePath "cam", .deletePath "cam", .deletePath "cam", .deletePath "cam",
       .deletePath "cam",
       .dockerRestart "mediamtx-n1", .dockerRestart "mediamtx-n1",
       .dockerRestart "mediamtx-n1", .dockerRestart "mediamtx-n1",
       .dockerRestart "mediamtx-n1"] := rfl
  refine ⟨h, ?_⟩
  rw [h]
  exact List.mem_cons_self _ _

/--
**C5** (amended).  For every stream whose `source_url` is unset: each
tier-3 attempt sends exactly one best-effort path delete to the node,
never the re-add, and fails with "No source URL configured for stream";
consequently a run forced to start at tier 3 runs all tier-3 attempts
without success, its attempt list is the tier-3 attempts followed by the
tier-4 attempts, and (with at least one attempt allowed) it escalates to
tier 4.
-/
theorem c5_tier3_amended (cfg : AutoRemediation.RemConfig)
    (env : AutoRemediation.RemEnv) (now : Int)
    (events : List AutoRemediation.REvent) (s : AutoRemediation.RStream)
    (hsrc : s.source_url = none) (hmax : 0 < cfg.max_attempts) :
    (∀ attempt, AutoRemediation.try_restart_path env s attempt =
      ({ success := false, action := "restart_path",
         message := "No source URL configured for stream" },
       [AutoRemediation.NodeReq.deletePath s.path])) ∧
    ((AutoRemediation.remediate_stream cfg env now events s (some 3)).attempts =
      (AutoRemediation.runAttempts (AutoRemediation.try_restart_path env s)
        cfg.max_attempts 0).1 ++
      (AutoRemediation.runAttempts (AutoRemediation.try_restart_mediamtx env s)
        cfg.max_attempts 0).1) ∧
    (∃ rec ∈ (AutoRemediation.remediate_stream cfg env now events s (some 3)).attempts,
      rec.action = "restart_mediamtx") := by
  have hpath : ∀ attempt, AutoRemediation.try_restart_path env s attempt =
      ({ success := false, action := "restart_path",
         message := "No source URL configured for stream" },
       [AutoRemediation.NodeReq.deletePath s.path]) := by
    intro attempt
    unfold AutoRemediation.try_restart_path
    rw [hsrc]
  have hfail3 : ∀ i, (AutoRemediation.try_restart_path env s i).1.success = false := by
    intro i
    rw [hpath i]
  have hok3 := runAttempts_all_fail _ hfail3 cfg.max_attempts 0
  have hattempts : (AutoRemediation.remediate_stream cfg env now events s (some 3)).attempts =
      (AutoRemediation.runAttempts (AutoRemediation.try_restart_path env s)
        cfg.max_attempts 0).1 ++
      (AutoRemediation.runAttempts (AutoRemediation.try_restart_mediamtx env s)
        cfg.max_attempts 0).1 := by
    show (AutoRemediation.runLevels 3 cfg.max_attempts
      [(1, AutoRemediation.try_reconnect env s),
       (2, AutoRemediation.try_restart_sidecar env s),
       (3, AutoRemediation.try_restart_path env s),
       (4, AutoRemediation.try_restart_mediamtx env s)]).1 = _
    rw [runLevels_skip 3 cfg.max_attempts 1 _ _ (by omega),
        runLevels_skip 3 cfg.max_attempts 2 _ _ (by omega),
        runLevels_fail 3 cfg.max_attempts 3 _ _ (by omega) hok3,
        runLevels_last 3 cfg.max_attempts 4 _ (by omega)]
  refine ⟨hpath, hattempts, ?_⟩
  obtain ⟨tail, htail⟩ := runAttempts_head
    (AutoRemediation.try_restart_mediamtx env s) cfg.max_attempts 0 hmax
  refine ⟨(AutoRemediation.try_restart_mediamtx env s 0).1, ?_,
    try_restart_mediamtx_action env s 0⟩
  rw [hattempts, htail]
  exact List.mem_append_right _ (List.mem_cons_self _ _)

/-- Witness for the amended C5 at the concrete no-source stream. -/
theorem c5_tier3_amended_witness :
    (∀ attempt, AutoRemediation.try_restart_path remEnvNoSessions c5Stream attempt =
      ({ success := false, action := "restart_path",
         message := "No source URL configured for stream" },
       [AutoRemediation.NodeReq.deletePath c5Stream.path])) ∧
    ((AutoRemediation.remediate_stream AutoRemediation.defaultRemConfig remEnvNoSessions
        0 [] c5Stream (some 3)).attempts =
      (AutoRemediation.runAttempts
        (AutoRemediation.try_restart_path remEnvNoSessions c5Stream)
        AutoRemediation.defaultRemConfig.max_attempts 0).1 ++
      (AutoRemediation.runAttempts
        (AutoRemediation.try_restart_mediamtx remEnvNoSessions c5Stream)
        AutoRemediation.defaultRemConfig.max_attempts 0).1) ∧
    (∃ rec ∈ (AutoRemediation.remediate_stream AutoRemediation.defaultRemConfig
        remEnvNoSessions 0 [] c5Stream (some 3)).attempts,
      rec.action = "restart_mediamtx") :=
  c5_tier3_amended AutoRemediation.defaultRemConfig remEnvNoSessions 0 [] c5Stream
    rfl (by decide)

/--
**C4** (confirmed).  Every remediation run emits `remediation_started` at
its beginning and exactly one of `remediation_success` /
`remediation_failed` at its end, the end event carrying the ordered list
of attempts (one detail entry per attempt, in order), and increments
`stream.remediation_count` by one; in particular the S3 escalation run —
tiers 1 and 2 failing all 5 attempts, tier 3 succeeding at once — records
exactly 11 attempt entries and ends with `remediation_success`.
-/
theorem c4_remediation_bracketing (cfg : AutoRemediation.RemConfig)
    (env : AutoRemediation.RemEnv) (now : Int)
    (events : List AutoRemediation.REvent) (s : AutoRemediation.RStream)
    (force_level : Option Nat) :
    (∃ e_end : AutoRemediation.REvent,
      (AutoRemediation.remediate_stream cfg env now events s force_level).emitted =
        [{ stream_id := s.id, event_type := "remediation_started", severity := "info",
           message := "Starting remediation for stream " ++ s.path,
           details := [], created_at := now }, e_end] ∧
      e_end.event_type =
        (if (AutoRemediation.remediate_stream cfg env now events s force_level).success
         then "remediation_success" else "remediation_failed") ∧
      e_end.details =
        (AutoRemediation.remediate_stream cfg env now events s force_level).attempts.map
          (fun r => r.message)) ∧
    ((AutoRemediation.remediate_stream cfg env now events s force_level).stream.remediation_count
      = s.remediation_count + 1) ∧
    ((AutoRemediation.remediate_stream AutoRemediation.defaultRemConfig remEnvNoSessions
        0 [] c4Stream none).attempts.length = 11 ∧
     (AutoRemediation.remediate_stream AutoRemediation.defaultRemConfig remEnvNoSessions
        0 [] c4Stream none).success = true) := by
  refine ⟨⟨_, rfl, ?_, rfl⟩, rfl, rfl, rfl⟩
  rfl

/-- A YAML text parsing to `{a: 1, b: 2}` in that key order. -/
def c6TextA : String := "a: 1\nb: 2"

/-- A different YAML text parsing to the same mapping with the keys in
the other order. -/
def c6TextB : String := "b: 2\na: 1"

def c6ValA : Yaml := .map [("a", .int 1), ("b", .int 2)]

def c6ValB : Yaml := .map [("b", .int 2), ("a", .int 1)]

/-- A concrete stand-in for `yaml.safe_load` on the two texts above. -/
def c6Parse : String → Option Yaml := fun s =>
  if s = c6TextA then some c6ValA
  else if s = c6TextB then some c6ValB
  else none

/--
**C6** (confirmed).  For any parse function (standing for
`yaml.safe_load`) and any two texts whose parses are equal as mappings
(`Yaml.eqv`: same key set, recursively equal values, order-insensitive;
`Yaml.wf`: dicts have distinct keys, as Python dicts do), the canonical
hash — the first 16 hex characters of the SHA-256 of the sorted-key
re-serialization — is the same for both texts.
-/
theorem c6_canonical_hash_determinism (parse : String → Option Yaml) (x y : String)
    (a b : Yaml) (hx : parse x = some a) (hy : parse y = some b)
    (hwa : Yaml.wf a = true) (hwb : Yaml.wf b = true)
    (he : Yaml.eqv a b = true) :
    ConfigManager.hash_config parse x = ConfigManager.hash_config parse y := by
  unfold ConfigManager.hash_config
  rw [hx, hy]
  show some (ConfigManager.hashOfYaml a) = some (ConfigManager.hashOfYaml b)
  have hd : ConfigManager.hashOfYaml a = ConfigManager.hashOfYaml b := by
    unfold ConfigManager.hashOfYaml
    rw [dump_eq_of_eqv hwa hwb he]
  rw [hd]

unseal Yaml.wf Yaml.eqv in
/-- Witness for C6: two distinct texts whose parses are the same mapping
up to key order hash identically. -/
theorem c6_canonical_hash_determinism_witness :
    ConfigManager.hash_config c6Parse c6TextA = ConfigManager.hash_config c6Parse c6TextB ∧
    c6TextA ≠ c6TextB :=
  ⟨c6_canonical_hash_determinism c6Parse c6TextA c6TextB c6ValA c6ValB
      rfl rfl (by decide) (by decide) (by decide),
   by decide⟩

theorem applyConfig_success_eq (env : ConfigManager.NodeEnv) (nid : Option Nat)
    (cfg : Yaml) (notes : Option String) (db : ConfigManager.DBState) :
    (ConfigManager.applyConfig (some env) nid (some cfg) notes db).1.success =
      ((ConfigManager.validate (some cfg)).valid &&
        decide (env.patchStatus cfg ∈ [200, 204])) := by
  unfold ConfigManager.applyConfig ConfigManager.plan ConfigManager.fetch_current_config
  cases hv : (ConfigManager.validate (some cfg)).valid
  · simp [hv, ConfigManager.ApplyResult.success]
  · by_cases hpm : env.patchStatus cfg ∈ [200, 204]
    · simp [hv, hpm, ConfigManager.ApplyResult.success]
    · simp [hv, hpm, ConfigManager.ApplyResult.success]

theorem nodeApplyOk_eq (cfg : Yaml) (n : FleetManager.FleetNode) (nid : Option Nat)
    (notes : Option String) (db : ConfigManager.DBState) :
    (ConfigManager.applyConfig (some n.env) nid (some cfg) notes db).1.success =
      FleetManager.nodeApplyOk cfg n := by
  rw [applyConfig_success_eq]
  rfl

theorem runBatch_failed (cfg : Yaml) (environment : Option String) (bn : Nat) :
    ∀ (batch : List FleetManager.FleetNode) (db : ConfigManager.DBState),
      (FleetManager.runBatch cfg environment bn batch db).2.2 =
        (batch.filter (fun n => !(FleetManager.nodeApplyOk cfg n))).length := by
  intro batch
  induction batch with
  | nil => intro db; rfl
  | cons n rest ih =>
      intro db
      unfold FleetManager.runBatch
      rcases hA : ConfigManager.applyConfig (some n.env) (some n.id) (some cfg)
        (some ("Rolling update batch " ++ toString (bn + 1))) db with ⟨res, db1, tr⟩
      rcases hR : FleetManager.runBatch cfg environment bn rest db1 with ⟨db2, evts, failed⟩
      have hsucc : res.success = FleetManager.nodeApplyOk cfg n := by
        have h0 := nodeApplyOk_eq cfg n (some n.id)
          (some ("Rolling update batch " ++ toString (bn + 1))) db
        rw [hA] at h0
        exact h0
      have hfail := ih db1
      rw [hR] at hfail
      simp only at hfail
      cases hok : FleetManager.nodeApplyOk cfg n with
      | true => simp [hA, hR, List.filter_cons, hok, hsucc, hfail]
      | false =>
          simp [hA, hR, List.filter_cons, hok, hsucc, hfail]
          omega

theorem runBatch_ids (cfg : Yaml) (environment : Option String) (bn : Nat) :
    ∀ (batch : List FleetManager.FleetNode) (db : ConfigManager.DBState) (i : Nat),
      i ∈ FleetManager.reqNodeIds
        (FleetManager.runBatch cfg environment bn batch db).2.1 →
      i ∈ batch.map (fun n => n.id) := by
  intro batch
  induction batch with
  | nil => intro db i h; simp [FleetManager.runBatch, FleetManager.reqNodeIds] at h
  | cons n rest ih =>
      intro db i h
      unfold FleetManager.runBatch at h
      rcases hA : ConfigManager.applyConfig (some n.env) (some n.id) (some cfg)
        (some ("Rolling update batch " ++ toString (bn + 1))) db with ⟨res, db1, tr⟩
      rw [hA] at h
      dsimp only at h
      rcases hR : FleetManager.runBatch cfg environment bn rest db1 with ⟨db2, evts, failed⟩
      rw [hR] at h
      dsimp only at h
      simp only [FleetManager.reqNodeIds, List.filterMap_append, List.mem_append,
        List.filterMap_map] at h
      rcases h with h | h
      · have : i = n.id := by
          rcases List.mem_filterMap.mp h with ⟨r, _, hr⟩
          simp at hr
          exact hr.symm
        simp [this]
      · have := ih db1 i (by rw [hR]; simpa [FleetManager.reqNodeIds] using h)
        simp [this]

theorem runBatch_no_sleep (cfg : Yaml) (environment : Option String) (bn : Nat) :
    ∀ (batch : List FleetManager.FleetNode) (db : ConfigManager.DBState)
      (e : FleetManager.FleetEvt),
      e ∈ (FleetManager.runBatch cfg environment bn batch db).2.1 →
      e.isSleep = false := by
  intro batch
  induction batch with
  | nil => intro db e h; simp [FleetManager.runBatch] at h
  | cons n rest ih =>
      intro db e h
      unfold FleetManager.runBatch at h
      rcases hA : ConfigManager.applyConfig (some n.env) (some n.id) (some cfg)
        (some ("Rolling update batch " ++ toString (bn + 1))) db with ⟨res, db1, tr⟩
      rw [hA] at h
      dsimp only at h
      rcases hR : FleetManager.runBatch cfg environment bn rest db1 with ⟨db2, evts, failed⟩
      rw [hR] at h
      dsimp only at h
      simp only [List.mem_append] at h
      rcases h with h | h
      · rcases List.mem_map.mp h with ⟨r, _, hr⟩
        rw [← hr]
        rfl
      · exact ih db1 e (by rw [hR]; exact h)

theorem chunks_flatten {α : Type} (bs : Nat) (hbs : 0 < bs) :
    ∀ (l : List α), (FleetManager.chunks bs l).flatten = l := by
  have hbs0 : bs ≠ 0 := Nat.pos_iff_ne_zero.mp hbs
  have key : ∀ (n : Nat) (l : List α), l.length ≤ n →
      (FleetManager.chunks bs l).flatten = l := by
    intro n
    induction n with
    | zero =>
        intro l hl
        have : l = [] := List.eq_nil_of_length_eq_zero (Nat.le_zero.mp hl)
        subst this
        rw [FleetManager.chunks, dif_neg hbs0]
        rfl
    | succ k ih =>
        intro l hl
        cases l with
        | nil =>
            rw [FleetManager.chunks, dif_neg hbs0]
            rfl
        | cons a t =>
            rw [FleetManager.chunks, dif_neg hbs0]
            simp only [List.flatten_cons]
            rw [ih ((a :: t).drop bs) (by simp at hl ⊢; omega)]
            exact List.take_append_drop bs (a :: t)
  intro l
  exact key l.length l le_rfl

theorem runBatches_abort (cfg : Yaml) (environment : Option String) (delay : ℚ) :
    ∀ (pre : List (List FleetManager.FleetNode)) (bad : List FleetManager.FleetNode)
      (post : List (List FleetManager.FleetNode)) (bn : Nat)
      (db : ConfigManager.DBState),
      (∀ b ∈ pre, ∀ n ∈ b, FleetManager.nodeApplyOk cfg n = true) →
      (∃ n ∈ bad, FleetManager.nodeApplyOk cfg n = false) →
      (FleetManager.runBatches cfg environment delay bn db (pre ++ bad :: post)).1 =
        some (bn + pre.length + 1) ∧
      (∀ i, i ∈ FleetManager.reqNodeIds
          (FleetManager.runBatches cfg environment delay bn db (pre ++ bad :: post)).2.2 →
        i ∈ (pre.flatten ++ bad).map (fun n => n.id)) ∧
      (((FleetManager.runBatches cfg environment delay bn db
          (pre ++ bad :: post)).2.2.filter FleetManager.FleetEvt.isSleep).length
        = pre.length) ∧
      (∀ e ∈ (FleetManager.runBatches cfg environment delay bn db
          (pre ++ bad :: post)).2.2,
        e.isSleep = true → e = .sleep delay) := by
  intro pre
  induction pre with
  | nil =>
      intro bad post bn db hpre hbad
      simp only [List.nil_append, List.flatten_nil]
      unfold FleetManager.runBatches
      rcases hB : FleetManager.runBatch cfg environment bn bad db with ⟨db2, evts, failed⟩
      have hfailed : failed =
          (bad.filter (fun n => !(FleetManager.nodeApplyOk cfg n))).length := by
        have h0 := runBatch_failed cfg environment bn bad db
        rw [hB] at h0
        exact h0
      have hpos : failed > 0 := by
        obtain ⟨n, hn, hnok⟩ := hbad
        rw [hfailed]
        have : n ∈ bad.filter (fun n => !(FleetManager.nodeApplyOk cfg n)) :=
          List.mem_filter.mpr ⟨hn, by simp [hnok]⟩
        exact List.length_pos.mpr (List.ne_nil_of_mem this)
      dsimp only
      rw [if_pos hpos]
      have hnosleep : ∀ e ∈ evts, FleetManager.FleetEvt.isSleep e = false := by
        intro e he
        exact runBatch_no_sleep cfg environment bn bad db e (by rw [hB]; exact he)
      refine ⟨by simp, ?_, ?_, ?_⟩
      · intro i hi
        exact runBatch_ids cfg environment bn bad db i (by rw [hB]; exact hi)
      · have : evts.filter FleetManager.FleetEvt.isSleep = [] := by
          rw [List.filter_eq_nil_iff]
          intro e he
          simp [hnosleep e he]
        simp [this]
      · intro e he hs
        rw [hnosleep e he] at hs
        cases hs
  | cons b pres ih =>
      intro bad post bn db hpre hbad
      simp only [List.cons_append]
      unfold FleetManager.runBatches
      rcases hB : FleetManager.runBatch cfg environment bn b db with ⟨db2, evts, failed⟩
      have hfailed : failed = 0 := by
        have h0 := runBatch_failed cfg environment bn b db
        rw [hB] at h0
        simp only at h0
        rw [h0]
        have : b.filter (fun n => !(FleetManager.nodeApplyOk cfg n)) = [] := by
          rw [List.filter_eq_nil_iff]
          intro n hn
          simp [hpre b (List.mem_cons_self b pres) n hn]
        simp [this]
      dsimp only
      rw [hfailed, if_neg (by omega)]
      obtain ⟨r, rs, hrs⟩ : ∃ r rs, pres ++ bad :: post = r :: rs := by
        cases pres with
        | nil => exact ⟨bad, post, rfl⟩
        | cons p ps => exact ⟨p, ps ++ bad :: post, rfl⟩
      rw [hrs]
      dsimp only
      rcases hRB : FleetManager.runBatches cfg environment delay (bn + 1) db2 (r :: rs)
        with ⟨out, db3, evts2⟩
      dsimp only
      have ihx := ih bad post (bn + 1) db2
        (fun b2 hb2 => hpre b2 (List.mem_cons_of_mem b hb2)) hbad
      rw [hrs, hRB] at ihx
      simp only at ihx
      obtain ⟨ih1, ih2, ih3, ih4⟩ := ihx
      have hnosleep : ∀ e ∈ evts, FleetManager.FleetEvt.isSleep e = false := by
        intro e he
        exact runBatch_no_sleep cfg environment bn b db e (by rw [hB]; exact he)
      refine ⟨?_, ?_, ?_, ?_⟩
      · rw [ih1]
        congr 1
        simp only [List.length_cons]
        omega
      · intro i hi
        simp only [FleetManager.reqNodeIds, List.filterMap_append, List.mem_append] at hi
        rcases hi with (hi | hi) | hi
        · have := runBatch_ids cfg environment bn b db i
            (by rw [hB]; simpa [FleetManager.reqNodeIds] using hi)
          simp only [List.flatten_cons, List.map_append, List.mem_append, List.append_assoc]
          left
          exact this
        · simp [FleetManager.reqNodeIds] at hi
        · have := ih2 i (by simpa [FleetManager.reqNodeIds] using hi)
          simp only [List.flatten_cons, List.map_append, List.mem_append,
            List.append_assoc] at this ⊢
          rcases this with h | h
          · right; left; exact h
          · right; right; exact h
      · have h1 : evts.filter FleetManager.FleetEvt.isSleep = [] := by
          rw [List.filter_eq_nil_iff]
          intro e he
          simp [hnosleep e he]
        simp only [List.filter_append, h1, ih3]
        simp [FleetManager.FleetEvt.isSleep]
        exact ih3
      · intro e he hs
        simp only [List.mem_append] at he
        rcases he with (he | he) | he
        · rw [hnosleep e he] at hs
          cases hs
        · simp at he
          rw [he]
        · exact ih4 e he hs

/--
**C7** (confirmed).  In a rolling update whose batches split as
`pre ++ bad :: post` with every node of the `pre` batches applying
successfully and some node of batch `bad` failing: the rollout aborts
after the failing batch (`completed_batches = pre.length + 1`), no node
of any later batch receives any request (given the fleet's node ids are
distinct), and the engine slept `delay_between_batches` exactly once
between each pair of successive executed batches (`pre.length` sleeps,
each of the given delay).
-/
theorem c7_rolling_update_atomicity (snap : ConfigManager.Snapshot)
    (environment : Option String) (bs : Nat) (delay : ℚ)
    (allNodes : List FleetManager.FleetNode) (db : ConfigManager.DBState)
    (pre : List (List FleetManager.FleetNode))
    (bad : List FleetManager.FleetNode)
    (post : List (List FleetManager.FleetNode))
    (hbs : 0 < bs)
    (hnodup : ((FleetManager.filteredNodes environment allNodes).map
      (fun n => n.id)).Nodup)
    (hsplit : FleetManager.chunks bs (FleetManager.filteredNodes environment allNodes)
      = pre ++ bad :: post)
    (hpre : ∀ b ∈ pre, ∀ n ∈ b, FleetManager.nodeApplyOk snap.config_yaml n = true)
    (hbad : ∃ n ∈ bad, FleetManager.nodeApplyOk snap.config_yaml n = false) :
    ((FleetManager.rolling_update (some snap) environment bs delay allNodes db).1 =
      .aborted (pre.length + 1)) ∧
    (∀ b ∈ post, ∀ n ∈ b, ∀ r,
      FleetManager.FleetEvt.req n.id r ∉
        (FleetManager.rolling_update (some snap) environment bs delay allNodes db).2.2) ∧
    (((FleetManager.rolling_update (some snap) environment bs delay allNodes
        db).2.2.filter FleetManager.FleetEvt.isSleep).length = pre.length) ∧
    (∀ e ∈ (FleetManager.rolling_update (some snap) environment bs delay allNodes db).2.2,
      e.isSleep = true → e = .sleep delay) := by
  have hflat : (pre ++ bad :: post).flatten =
      FleetManager.filteredNodes environment allNodes := by
    rw [← hsplit]
    exact chunks_flatten bs hbs _
  have hempty : (FleetManager.filteredNodes environment allNodes).isEmpty = false := by
    cases hn : FleetManager.filteredNodes environment allNodes with
    | nil =>
        exfalso
        rw [hn] at hsplit
        rw [FleetManager.chunks, dif_neg (Nat.pos_iff_ne_zero.mp hbs)] at hsplit
        cases pre <;> simp at hsplit
    | cons a t => rfl
  have habort := runBatches_abort snap.config_yaml environment delay pre bad post 0 db
    hpre hbad
  have hru : FleetManager.rolling_update (some snap) environment bs delay allNodes db =
      (.aborted (pre.length + 1),
       (FleetManager.runBatches snap.config_yaml environment delay 0 db
         (pre ++ bad :: post)).2.1,
       (FleetManager.runBatches snap.config_yaml environment delay 0 db
         (pre ++ bad :: post)).2.2) := by
    unfold FleetManager.rolling_update
    dsimp only
    rw [hempty]
    simp only [Bool.false_eq_true, if_false, hsplit]
    rcases hRB : FleetManager.runBatches snap.config_yaml environment delay 0 db
      (pre ++ bad :: post) with ⟨out, db2, evts⟩
    have h1 := habort.1
    rw [hRB] at h1
    simp only at h1
    rw [h1]
    simp
  rw [hru]
  refine ⟨rfl, ?_, habort.2.2.1, habort.2.2.2⟩
  intro b hb n hn r hcontra
  have hid : n.id ∈ FleetManager.reqNodeIds
      (FleetManager.runBatches snap.config_yaml environment delay 0 db
        (pre ++ bad :: post)).2.2 := by
    unfold FleetManager.reqNodeIds
    exact List.mem_filterMap.mpr ⟨FleetManager.FleetEvt.req n.id r, hcontra, rfl⟩
  have hin1 : n.id ∈ (pre.flatten ++ bad).map (fun n => n.id) := habort.2.1 n.id hid
  have hin2 : n.id ∈ post.flatten.map (fun n => n.id) :=
    List.mem_map.mpr ⟨n, List.mem_flatten.mpr ⟨b, hb, hn⟩, rfl⟩
  have hnd : (((pre.flatten ++ bad).map (fun n => n.id)) ++
      post.flatten.map (fun n => n.id)).Nodup := by
    rw [← hflat] at hnodup
    simp only [List.flatten_append, List.flatten_cons, List.map_append,
      List.append_assoc] at hnodup ⊢
    exact hnodup
  exact (List.nodup_append.mp hnd).2.2 hin1 hin2

unseal FleetManager.chunks in
/-- Witness for C7: two nodes in batches of one, the first failing its
PATCH — the rollout aborts after batch 1, the second node receives no
request, and no sleep occurs. -/
theorem c7_rolling_update_atomicity_witness :
    ((FleetManager.rolling_update (some c7Snap) none 1 (30 : ℚ)
        [c7NodeBad, c7NodeOk] ⟨[], []⟩).1 = .aborted 1) ∧
    (∀ b ∈ [[c7NodeOk]], ∀ n ∈ b, ∀ r,
      FleetManager.FleetEvt.req n.id r ∉
        (FleetManager.rolling_update (some c7Snap) none 1 (30 : ℚ)
          [c7NodeBad, c7NodeOk] ⟨[], []⟩).2.2) ∧
    (((FleetManager.rolling_update (some c7Snap) none 1 (30 : ℚ)
        [c7NodeBad, c7NodeOk] ⟨[], []⟩).2.2.filter
          FleetManager.FleetEvt.isSleep).length = 0) ∧
    (∀ e ∈ (FleetManager.rolling_update (some c7Snap) none 1 (30 : ℚ)
        [c7NodeBad, c7NodeOk] ⟨[], []⟩).2.2,
      e.isSleep = true → e = .sleep (30 : ℚ)) :=
  c7_rolling_update_atomicity c7Snap none 1 (30 : ℚ) [c7NodeBad, c7NodeOk]
    ⟨[], []⟩ [] [c7NodeBad] [[c7NodeOk]]
    (by decide) (by decide) rfl (by simp)
    ⟨c7NodeBad, by simp, by decide⟩

theorem pressureLoop_state_dry (free minf : ℚ) :
    ∀ (lst : List RetentionManager.Recording) (st : RetentionManager.RetState)
      (acc : List RetentionManager.Victim × Nat),
      (RetentionManager.pressureLoop true free minf lst st acc).1 = st := by
  intro lst
  induction lst with
  | nil => intro st acc; rfl
  | cons r rest ih =>
      intro st acc
      obtain ⟨victims, freed⟩ := acc
      unfold RetentionManager.pressureLoop
      by_cases hb : minf ≤ free <;> simp [hb, ih]

theorem pressureLoop_recordings_mem (dry : Bool) (free minf : ℚ) :
    ∀ (lst : List RetentionManager.Recording) (st : RetentionManager.RetState)
      (acc : List RetentionManager.Victim × Nat) (r : RetentionManager.Recording),
      r ∈ (RetentionManager.pressureLoop dry free minf lst st acc).1.recordings →
      r ∈ st.recordings := by
  intro lst
  induction lst with
  | nil => intro st acc r h; exact h
  | cons q rest ih =>
      intro st acc r h
      obtain ⟨victims, freed⟩ := acc
      unfold RetentionManager.pressureLoop at h
      by_cases hb : minf ≤ free
      · simp [hb] at h
        exact h
      · rw [if_neg hb] at h
        by_cases hd : dry = true
        · rw [if_pos hd] at h
          exact ih st _ r h
        · rw [if_neg hd] at h
          have := ih _ _ r h
          simp only [List.mem_filter] at this
          exact this.1

theorem pressureLoop_fs_mem (dry : Bool) (free minf : ℚ) :
    ∀ (lst : List RetentionManager.Recording) (st : RetentionManager.RetState)
      (acc : List RetentionManager.Victim × Nat) (p : String),
      p ∈ (RetentionManager.pressureLoop dry free minf lst st acc).1.fs →
      p ∈ st.fs := by
  intro lst
  induction lst with
  | nil => intro st acc p h; exact h
  | cons q rest ih =>
      intro st acc p h
      obtain ⟨victims, freed⟩ := acc
      unfold RetentionManager.pressureLoop at h
      by_cases hb : minf ≤ free
      · simp [hb] at h
        exact h
      · rw [if_neg hb] at h
        by_cases hd : dry = true
        · rw [if_pos hd] at h
          exact ih st _ p h
        · rw [if_neg hd] at h
          have := ih _ _ p h
          simp only [RetentionManager.fsRemove, List.mem_filter] at this
          exact this.1

theorem pressureLoop_victims (dry : Bool) (free minf : ℚ) :
    ∀ (lst : List RetentionManager.Recording) (st : RetentionManager.RetState)
      (victims : List RetentionManager.Victim) (freed : Nat)
      (v : RetentionManager.Victim),
      v ∈ (RetentionManager.pressureLoop dry free minf lst st (victims, freed)).2.1 →
      v ∈ victims ∨ ∃ r ∈ lst, v = ⟨r.id, r.file_path, r.file_size, "disk_pressure"⟩ := by
  intro lst
  induction lst with
  | nil => intro st victims freed v h; exact Or.inl h
  | cons q rest ih =>
      intro st victims freed v h
      unfold RetentionManager.pressureLoop at h
      by_cases hb : minf ≤ free
      · simp [hb] at h
        exact Or.inl h
      · rw [if_neg hb] at h
        have hstep : ∀ (st1 : RetentionManager.RetState) (fr : Nat),
            v ∈ (RetentionManager.pressureLoop dry free minf rest st1
              (victims ++ [⟨q.id, q.file_path, q.file_size, "disk_pressure"⟩], fr)).2.1 →
            v ∈ victims ∨ ∃ r ∈ q :: rest,
              v = ⟨r.id, r.file_path, r.file_size, "disk_pressure"⟩ := by
          intro st1 fr hh
          rcases ih _ _ _ v hh with hv | ⟨r, hr, hveq⟩
          · rcases List.mem_append.mp hv with hv | hv
            · exact Or.inl hv
            · exact Or.inr ⟨q, List.mem_cons_self q rest, List.mem_singleton.mp hv⟩
          · exact Or.inr ⟨r, List.mem_cons_of_mem q hr, hveq⟩
        by_cases hd : dry = true
        · rw [if_pos hd] at h
          exact hstep _ _ h
        · rw [if_neg hd] at h
          exact hstep _ _ h

theorem foldl_fsRemove_subset :
    ∀ (l : List RetentionManager.Recording) (fs : List String) (p : String),
      p ∈ l.foldl (fun fs q => RetentionManager.fsRemove fs q.file_path) fs →
      p ∈ fs := by
  intro l
  induction l with
  | nil => intro fs p h; exact h
  | cons q rest ih =>
      intro fs p h
      have := ih _ p h
      simp only [RetentionManager.fsRemove, List.mem_filter] at this
      exact this.1

theorem foldl_fsRemove_not_mem :
    ∀ (l : List RetentionManager.Recording) (fs : List String)
      (r : RetentionManager.Recording), r ∈ l →
      r.file_path ∉ l.foldl (fun fs q => RetentionManager.fsRemove fs q.file_path) fs := by
  intro l
  induction l with
  | nil => intro fs r h; simp at h
  | cons q rest ih =>
      intro fs r hmem hcontra
      rcases List.mem_cons.mp hmem with heq | htail
      · subst heq
        have := foldl_fsRemove_subset rest _ _ hcontra
        simp [RetentionManager.fsRemove] at this
      · exact ih _ r htail hcontra

/--
**C8** (confirmed).  With `dry_run=false`, after cleanup no recording with
`expires_at ≤ now` and `is_archived=false` remains in the store, and no
file referenced by such a row remains on disk.  With `dry_run=true` the
store and filesystem are unchanged and every returned would-be victim is
an actual row of the store that is either expired (reason `expired`) or a
continuous non-archived disk-pressure candidate (reason `disk_pressure`).
-/
theorem c8_retention_cleanup (threshold minf : ℚ) (now : Int)
    (disk : RetentionManager.DiskUsage) (st : RetentionManager.RetState) :
    (∀ r ∈ (RetentionManager.cleanup threshold minf now false disk st).2.recordings,
      RetentionManager.expiredPred now r = false) ∧
    (∀ r ∈ st.recordings, RetentionManager.expiredPred now r = true →
      r.file_path ∉ (RetentionManager.cleanup threshold minf now false disk st).2.fs) ∧
    ((RetentionManager.cleanup threshold minf now true disk st).2 = st) ∧
    (∀ v ∈ (RetentionManager.cleanup threshold minf now true disk st).1.deleted,
      ∃ r ∈ st.recordings, v.id = r.id ∧ v.file_path = r.file_path ∧
        ((v.reason = "expired" ∧ RetentionManager.expiredPred now r = true) ∨
         (v.reason = "disk_pressure" ∧ RetentionManager.pressurePred r = true))) := by
  refine ⟨?_, ?_, ?_, ?_⟩
  · intro r hr
    unfold RetentionManager.cleanup at hr
    by_cases hp : threshold * 100 ≤ disk.usage_percent
    · simp only [Bool.false_eq_true, if_false, if_pos hp] at hr
      have h2 := pressureLoop_recordings_mem false disk.free_gb minf _ _ _ r hr
      simp only [List.mem_filter, Bool.not_eq_eq_eq_not, Bool.not_true] at h2
      exact h2.2
    · simp only [Bool.false_eq_true, if_false, if_neg hp] at hr
      simp only [List.mem_filter, Bool.not_eq_eq_eq_not, Bool.not_true] at hr
      exact hr.2
  · intro r hmem hexp
    unfold RetentionManager.cleanup
    by_cases hp : threshold * 100 ≤ disk.usage_percent
    · simp only [Bool.false_eq_true, if_false, if_pos hp]
      intro hcontra
      have h1 := pressureLoop_fs_mem false disk.free_gb minf _ _ _ _ hcontra
      exact foldl_fsRemove_not_mem _ st.fs r (List.mem_filter.mpr ⟨hmem, hexp⟩) h1
    · simp only [Bool.false_eq_true, if_false, if_neg hp]
      intro hcontra
      exact foldl_fsRemove_not_mem _ st.fs r (List.mem_filter.mpr ⟨hmem, hexp⟩) hcontra
  · unfold RetentionManager.cleanup
    by_cases hp : threshold * 100 ≤ disk.usage_percent
    · simp [hp, pressureLoop_state_dry]
    · simp [hp]
  · intro v hv
    unfold RetentionManager.cleanup at hv
    by_cases hp : threshold * 100 ≤ disk.usage_percent
    · simp only [if_pos hp, if_true] at hv
      rcases pressureLoop_victims true disk.free_gb minf _ _ _ _ v hv with h1 | ⟨r, hr, hveq⟩
      · rcases List.mem_map.mp h1 with ⟨r, hr, hveq⟩
        refine ⟨r, List.mem_of_mem_filter hr, ?_⟩
        subst hveq
        exact ⟨rfl, rfl, Or.inl ⟨rfl, (List.mem_filter.mp hr).2⟩⟩
      · have hms := List.mem_of_mem_take hr
        have h3 := (List.mergeSort_perm _ RetentionManager.byStart).mem_iff.mp hms
        have hr2 : r ∈ st.recordings := List.mem_of_mem_filter h3
        have hpr : RetentionManager.pressurePred r = true := (List.mem_filter.mp h3).2
        subst hveq
        exact ⟨r, hr2, rfl, rfl, Or.inr ⟨rfl, hpr⟩⟩
    · simp only [if_neg hp, if_true] at hv
      rcases List.mem_map.mp hv with ⟨r, hr, hveq⟩
      refine ⟨r, List.mem_of_mem_filter hr, ?_⟩
      subst hveq
      exact ⟨rfl, rfl, Or.inl ⟨rfl, (List.mem_filter.mp hr).2⟩⟩

/-- Python truthiness of `path_data.get('confName')`: present and
non-empty. -/
def truthyConf : Option String → Bool
  | some c => c != ""
  | none => false

theorem quick_check_rows (now : Int) (items : List (String × HealthChecker.HPathData)) :
    ∀ streams, (HealthChecker.quick_check_node now items streams).1 =
      streams.map (fun s =>
        { s with status := HealthChecker.classifyPath (HealthChecker.lookupPath items s.path),
                 last_check := some now }) := by
  intro streams
  induction streams with
  | nil => rfl
  | cons s rest ih =>
      simp only [HealthChecker.quick_check_node, List.map_cons]
      rcases hR : HealthChecker.quick_check_node now items rest with ⟨rows, evts, counts⟩
      rw [hR] at ih
      simp at ih
      simp [ih]

theorem quick_check_events (now : Int) (items : List (String × HealthChecker.HPathData)) :
    ∀ streams, (HealthChecker.quick_check_node now items streams).2.1 =
      (streams.filter (fun s =>
        s.status != HealthChecker.classifyPath (HealthChecker.lookupPath items s.path))).map
        (fun s => HealthChecker.create_status_change_event s.id
          (HealthChecker.classifyPath (HealthChecker.lookupPath items s.path)) s.status) := by
  intro streams
  induction streams with
  | nil => rfl
  | cons s rest ih =>
      simp only [HealthChecker.quick_check_node]
      rcases hR : HealthChecker.quick_check_node now items rest with ⟨rows, evts, counts⟩
      rw [hR] at ih
      simp at ih
      by_cases hch : s.status = HealthChecker.classifyPath (HealthChecker.lookupPath items s.path)
      · simp [List.filter_cons, hch, ih]
      · simp [List.filter_cons, hch, ih]

/--
**C9** (confirmed).  In the fast health check: a missing path classifies
as `unhealthy`; a path with `ready=true` as `healthy`; `ready=false` with
a source as `degraded`; `ready=false` without a source but with a truthy
`confName` as `degraded`, otherwise `unhealthy`.  One call updates every
stream's status and `last_check`, and emits exactly one transition event
per stream whose stored status differs from the new one (and none for
the others), in stream order.
-/
theorem c9_quick_check_classification (now : Int)
    (items : List (String × HealthChecker.HPathData))
    (streams : List HealthChecker.HStream) :
    (HealthChecker.classifyPath none = "unhealthy") ∧
    (∀ p : HealthChecker.HPathData,
      (p.ready = true → HealthChecker.classifyPath (some p) = "healthy") ∧
      (p.ready = false → p.source.isSome = true →
        HealthChecker.classifyPath (some p) = "degraded") ∧
      (p.ready = false → p.source = none → truthyConf p.confName = true →
        HealthChecker.classifyPath (some p) = "degraded") ∧
      (p.ready = false → p.source = none → truthyConf p.confName = false →
        HealthChecker.classifyPath (some p) = "unhealthy")) ∧
    ((HealthChecker.quick_check_node now items streams).1 =
      streams.map (fun s =>
        { s with status := HealthChecker.classifyPath (HealthChecker.lookupPath items s.path),
                 last_check := some now })) ∧
    ((HealthChecker.quick_check_node now items streams).2.1 =
      (streams.filter (fun s =>
        s.status != HealthChecker.classifyPath (HealthChecker.lookupPath items s.path))).map
        (fun s => HealthChecker.create_status_change_event s.id
          (HealthChecker.classifyPath (HealthChecker.lookupPath items s.path)) s.status)) := by
  refine ⟨rfl, ?_, quick_check_rows now items streams, quick_check_events now items streams⟩
  intro p
  obtain ⟨rd, src, cn, br⟩ := p
  unfold HealthChecker.classifyPath
  refine ⟨?_, ?_, ?_, ?_⟩
  · intro h
    subst h
    simp
  · intro h hs
    subst h
    cases src with
    | none => simp at hs
    | some s0 => simp
  · intro h hs hc
    subst h
    subst hs
    cases cn with
    | none => simp [truthyConf] at hc
    | some c =>
        simp only [truthyConf, bne_iff_ne] at hc
        simp [hc]
  · intro h hs hc
    subst h
    subst hs
    cases cn with
    | none => simp
    | some c =>
        simp only [truthyConf] at hc
        have hc2 : c = "" := by
          by_contra hne
          rw [bne_iff_ne.mpr hne] at hc
          cases hc
        simp [hc2]

/--
**C10** (confirmed).  `_create_status_change_event` records
`disconnected` exactly when the new status is `unhealthy`; every other
transition — including to `degraded` and `unknown` — is recorded as
`reconnected`; severity is critical for `unhealthy`, warning for
`degraded`, info otherwise.
-/
theorem c10_status_change_event (stream_id : Nat) (new_status old_status : String) :
    ((HealthChecker.create_status_change_event stream_id new_status old_status).event_type
        = "disconnected" ↔ new_status = "unhealthy") ∧
    (new_status ≠ "unhealthy" →
      (HealthChecker.create_status_change_event stream_id new_status old_status).event_type
        = "reconnected") ∧
    ((HealthChecker.create_status_change_event stream_id new_status old_status).severity
      = if new_status = "unhealthy" then "critical"
        else if new_status = "degraded" then "warning" else "info") := by
  unfold HealthChecker.create_status_change_event
  refine ⟨?_, ?_, rfl⟩ <;> by_cases h : new_status = "unhealthy" <;> simp [h]

end MtxToolkit
